import Mathlib

/-!
Verification of the product-lookup enrichment pipeline
(`src/productlookup/services/web_crawler.py`,
 `src/productlookup/services/ollama_content_filter.py`,
 `src/productlookup/services/product_crawler_service.py`)
against its natural-language specification.

The Python code is shallowly embedded: strings are Lean `String` / `List Char`
(ASCII granularity: Python's Unicode-aware `\s`, `\d`, `IGNORECASE` classes are
modelled by their ASCII subsets, which covers every input considered here),
Python values that flow through dictionaries are an inductive `PyVal`,
exceptions are `Option` (`none` = the statement raised), and the external
collaborators (the crawl4ai engine, the Ollama HTTP endpoint, the JSON parser)
are oracles passed in as function arguments.  The configuration files
`medical_lab_config.json` and the crawler config are absent from the
repository, so `validation_rules` and `site_strategies` are kept as explicit
parameters (the repository's own default, when the files are missing, is the
empty table).
-/

namespace ProductLookup

/-- Model of a Python value as it can appear inside the dictionaries the
pipeline passes around (JSON-decoded data, extracted field maps). -/
inductive PyVal where
  | vStr (s : String)
  | vInt (n : Int)
  | vList (xs : List PyVal)
  | vDict (kvs : List (String × PyVal))
  | vNone

open PyVal

/-- Python equality between an arbitrary value and a string constant
(`value == "Not found"`): only a `str` can compare equal to a `str`. -/
def pyEqStr (v : PyVal) (s : String) : Bool :=
  match v with
  | vStr t => t == s
  | _ => false

/-- The `isinstance(v, str)`. -/
def isVStr : PyVal → Bool
  | vStr _ => true
  | _ => false

/-- Python truthiness (`if value:`): empty string / list / dict, zero and
`None` are falsy. -/
def pyTruthy : PyVal → Bool
  | vStr s => s ≠ ""
  | vInt n => n ≠ 0
  | vList xs => ¬ xs.isEmpty
  | vDict kvs => ¬ kvs.isEmpty
  | vNone => false

/-- A rendering of a Python value for `str(value)`.  Faithful for strings and
integers (the only cases the claims evaluate concretely); container values get
a `repr`-style rendering. -/
def pyStr : PyVal → String
  | vStr s => s
  | vInt n => toString n
  | vList _ => "[...]"
  | vDict _ => "\x7b...\x7d"
  | vNone => "None"

/-- The `d.get(k)` on a Python dict (keys are unique, insertion ordered). -/
def dictGet (d : List (String × PyVal)) (k : String) : Option PyVal :=
  (d.find? (fun kv => kv.1 == k)).map (·.2)

/-- The `d.get(k, default)`. -/
def dictGetD (d : List (String × PyVal)) (k : String) (dflt : PyVal) : PyVal :=
  (dictGet d k).getD dflt

/-- The `d[k] = v` on a Python dict: updates the value in place if the key exists
(keeping its position), otherwise appends. -/
def dictSet : List (String × PyVal) → String → PyVal → List (String × PyVal)
  | [], k, v => [(k, v)]
  | (k', v') :: r, k, v =>
      if k' == k then (k', v) :: r else (k', v') :: dictSet r k v

/-- ASCII whitespace characters stripped by Python's `str.strip()` and matched
by `\s`. -/
def isPySpace (c : Char) : Bool :=
  c == ' ' || c == '\t' || c == '\n' || c == '\r' || c == '\x0b' || c == '\x0c'

/-- The `str.strip()` on a character list. -/
def pyStripL (l : List Char) : List Char :=
  ((l.dropWhile isPySpace).reverse.dropWhile isPySpace).reverse

/-- The `str.strip()` on a string. -/
def pyStrip (s : String) : String := String.mk (pyStripL s.data)

/-- ASCII lower-casing, for Python's `str.lower()` and `re.IGNORECASE`. -/
def lowerL (l : List Char) : List Char := l.map Char.toLower

/-- The `needle` is a prefix of `hay` (case sensitive). -/
def startsWithL : List Char → List Char → Bool
  | [], _ => true
  | _ :: _, [] => false
  | n :: ns, h :: hs => n == h && startsWithL ns hs

/-- Python's `needle in hay` substring test. -/
def containsSubL (needle : List Char) : List Char → Bool
  | [] => startsWithL needle []
  | c :: cs => startsWithL needle (c :: cs) || containsSubL needle cs

/-- Python's `str.find(ch)`: index of the first occurrence, `-1` if absent. -/
def pyFind (s : List Char) (ch : Char) : Int :=
  match s.findIdx? (fun c => c == ch) with
  | some n => (n : Int)
  | none => -1

/-- Python's `str.rfind(ch)`: index of the last occurrence, `-1` if absent. -/
def pyRFind (s : List Char) (ch : Char) : Int :=
  match s.reverse.findIdx? (fun c => c == ch) with
  | some n => (s.length - 1 - n : Int)
  | none => -1

/-- Python slice `s[a:b]` for `0 ≤ a ≤ b` (the only case the embedded code
reaches, because of the guard on `find`/`rfind`). -/
def pySliceL (s : List Char) (a b : Int) : List Char :=
  (s.take b.toNat).drop a.toNat

/-!
## A small regular-expression engine

Every regex in the source is a plain sequence of character-class repetitions
(`[A-Z]{2,4}\d{3,6}[A-Z]?`, `\$\d+[,\d]*\.?\d*`, …), so a pattern is modelled
as a list of items `⟨class, lo, hi⟩` (`hi = none` means unbounded, as in `+`
and `*`).  Matching is greedy with backtracking, exactly Python's behaviour on
such patterns; `re.IGNORECASE` is folded into the character classes.
-/

/-- One repetition item of a pattern: a character class with a repetition
count range. -/
structure RItem where
  cl : Char → Bool
  lo : Nat
  hi : Option Nat

/-- Try repetition counts `k, k-1, …, lo` (greedy order) until `f` succeeds. -/
def tryKs (lo : Nat) (f : Nat → Option Nat) : Nat → Option Nat
  | 0 => if lo = 0 then f 0 else none
  | k + 1 =>
      if k + 1 < lo then none
      else
        match f (k + 1) with
        | some n => some n
        | none => tryKs lo f k

/-- Greedy match of a pattern at the head of `s`: the number of characters the
leftmost-greedy match consumes, or `none`. -/
def matchSeq : List RItem → List Char → Option Nat
  | [], _ => some 0
  | it :: rest, s =>
      let run := (s.takeWhile it.cl).length
      let maxT := match it.hi with | none => run | some h => min h run
      tryKs it.lo (fun k => (matchSeq rest (s.drop k)).map (k + ·)) maxT

/-- The `∃ j ∈ [lo, k], f j` as a boolean. -/
def anyKs (lo : Nat) (f : Nat → Bool) : Nat → Bool
  | 0 => lo == 0 && f 0
  | k + 1 =>
      if k + 1 < lo then false
      else f (k + 1) || anyKs lo f k

/-- The pattern matches `s` exactly (anchored on both sides, `re.match` of an
`^…$` pattern on a string with no trailing newline). -/
def matchExact : List RItem → List Char → Bool
  | [], s => s.isEmpty
  | it :: rest, s =>
      let run := (s.takeWhile it.cl).length
      let maxT := match it.hi with | none => run | some h => min h run
      anyKs it.lo (fun k => matchExact rest (s.drop k)) maxT

/-- The `re.findall(pattern, s)[0]`: the leftmost match (scanning start positions
left to right, greedy at each position). -/
def scanMatch (pat : List RItem) : List Char → Option (List Char)
  | [] => (matchSeq pat []).map (fun n => ([] : List Char).take n)
  | c :: cs =>
      match matchSeq pat (c :: cs) with
      | some n => some ((c :: cs).take n)
      | none => scanMatch pat cs

/-! Character classes used by the source's patterns. -/

/-- The `\d` (ASCII). -/
def isDigitC (c : Char) : Bool := c.isDigit

/-- The `[A-Z]` under `re.IGNORECASE` (ASCII). -/
def isAlphaCI (c : Char) : Bool := c.isAlpha

/-- The `[,\d]`. -/
def isDigitComma (c : Char) : Bool := c.isDigit || c == ','

/-- A literal character, case sensitive. -/
def litC (c : Char) : Char → Bool := fun x => x == c

/-- A literal character under `re.IGNORECASE`. -/
def litCI (c : Char) : Char → Bool := fun x => x.toLower == c.toLower

/-- An item appearing exactly once. -/
def one (p : Char → Bool) : RItem := ⟨p, 1, some 1⟩

/-- The `?`. -/
def opt (p : Char → Bool) : RItem := ⟨p, 0, some 1⟩

/-- The `*`. -/
def star (p : Char → Bool) : RItem := ⟨p, 0, none⟩

/-- The `+`. -/
def plus (p : Char → Bool) : RItem := ⟨p, 1, none⟩

/-- The `{lo,hi}`. -/
def rep (p : Char → Bool) (lo hi : Nat) : RItem := ⟨p, lo, some hi⟩

/-!
## Pattern banks (`WebCrawlerService._setup_medical_patterns`)

The configuration file `medical_lab_config.json` is absent from the
repository, so `_load_additional_patterns` leaves these hard-coded lists
unchanged.  They are applied by `_extract_from_text` with `re.IGNORECASE`.
-/

/-- The `sku_patterns` from `_setup_medical_patterns`. -/
def sku_patterns : List (List RItem) :=
  [ [rep isAlphaCI 2 4, rep isDigitC 3 6, opt isAlphaCI],       -- [A-Z]{2,4}\d{3,6}[A-Z]?
    [rep isDigitC 6 8],                                         -- \d{6,8}
    [plus isAlphaCI, plus isDigitC, plus isAlphaCI],            -- [A-Z]+\d+[A-Z]+
    [rep isDigitC 3 4, one (litC '-'), rep isDigitC 3 4] ]      -- \d{3,4}-\d{3,4}

/-- The `part_number_patterns` from `_setup_medical_patterns`. -/
def part_number_patterns : List (List RItem) :=
  [ [rep isDigitC 3 4, opt isAlphaCI, one (litC '/'), rep isDigitC 1 3],
      -- \d{3,4}[A-Z]?/\d{1,3}
    [plus isAlphaCI, rep isDigitC 2 4, opt isAlphaCI],          -- [A-Z]+\d{2,4}[A-Z]?
    [rep isDigitC 1 2, one (litC '.'), rep isDigitC 1 2, one (litC '-'),
      rep isDigitC 1 2, opt isAlphaCI,
      one (fun c => c.toLower == 'l' || c.toLower == 'u' || c == '|')],
      -- \d{1,2}\.\d{1,2}-\d{1,2}[A-Z]?[L|ul]
    [plus isAlphaCI, one (litC '-'), rep isDigitC 3 4] ]        -- [A-Z]+-\d{3,4}


/-- The `price_patterns` from `_setup_medical_patterns` (used case-insensitively
by the pattern bank). -/
def price_patterns : List (List RItem) :=
  [ [one (litC '$'), plus isDigitC, star isDigitComma, opt (litC '.'),
      star isDigitC],                                           -- \$\d+[,\d]*\.?\d*
    [one (litC '$'), star isPySpace, plus isDigitC, star isDigitComma,
      opt (litC '.'), star isDigitC],                           -- \$\s*\d+[,\d]*\.?\d*
    [plus isDigitC, star isDigitComma, opt (litC '.'), star isDigitC,
      star isPySpace, one (litCI 'U'), one (litCI 'S'), one (litCI 'D')] ]
                                                                -- \d+[,\d]*\.?\d*\s*USD

/-!
## `_clean_and_validate_price` patterns (case sensitive, anchored)
-/

/-- The `\$\d+[,\d]*\.?\d*` — also the unanchored `re.search` pattern of
`_clean_and_validate_price`; anchored, it is `^\$\d+[,\d]*\.?\d*$`. -/
def priceP1 : List RItem :=
  [one (litC '$'), plus isDigitC, star isDigitComma, opt (litC '.'),
    star isDigitC]

/-- The `^\$\s*\d+[,\d]*\.?\d*$`. -/
def priceP2 : List RItem :=
  [one (litC '$'), star isPySpace, plus isDigitC, star isDigitComma,
    opt (litC '.'), star isDigitC]

/-- The `^\d+[,\d]*\.?\d*\s*USD$` (case sensitive: no flag in the source here). -/
def priceP3 : List RItem :=
  [plus isDigitC, star isDigitComma, opt (litC '.'), star isDigitC,
    star isPySpace, one (litC 'U'), one (litC 'S'), one (litC 'D')]

/-- The `^\d+[,\d]*\.?\d*$`. -/
def priceP4 : List RItem :=
  [plus isDigitC, star isDigitComma, opt (litC '.'), star isDigitC]

/-!
## `_extract_from_text` (the Pattern Bank)
-/

/-- The `WebCrawlerService._extract_from_text`: apply the ordered pattern list to
the text (first `findall` match of each pattern, in list order); a match is
kept only if its stripped form has length > 2; otherwise the next pattern is
tried.  Returns `""` when nothing matches (or the text is empty). -/
def extract_from_text (patterns : List (List RItem)) (text : String) : String :=
  if text = "" then ""
  else loop patterns
where
  loop : List (List RItem) → String
    | [] => ""
    | pat :: rest =>
        match scanMatch pat text.data with
        | some m =>
            let t := pyStripL m
            if ¬ t.isEmpty ∧ t.length > 2 then String.mk t else loop rest
        | none => loop rest

/-!
## Field cleaning and validation (`WebCrawlerService`)
-/

/-- The word alternation of the two `re.sub` calls in
`_clean_and_validate_field`. -/
def stripWords : List (List Char) :=
  ["sku".data, "part".data, "number".data, "id".data, "code".data, "item".data]

/-- The `[:\s]` class of those substitutions. -/
def isColonSpace (c : Char) : Bool := c == ':' || isPySpace c

/-- The `re.sub(r'^(sku|part|number|id|code|item)[:\s]*', '', value, re.IGNORECASE)`
on an already-stripped value: if the value starts (case-insensitively) with one
of the words, drop it together with the greedy run of colons/whitespace after
it.  (No word is a prefix of another, so the ordered alternation is
unambiguous.) -/
def stripVendorWordAtStart (l : List Char) : List Char :=
  match stripWords.find? (fun w => startsWithL w (lowerL l)) with
  | some w => (l.drop w.length).dropWhile isColonSpace
  | none => l

/-- Does the suffix starting here consist of a `[:\s]*` run followed exactly by
one of the words?  (The words contain no colon/space, so the greedy run is the
maximal one.) -/
def suffixWordHit (l : List Char) : Bool :=
  stripWords.any (fun w => lowerL (l.dropWhile isColonSpace) == w)

/-- The `re.sub(r'[:\s]*(sku|part|number|id|code|item)$', '', value, re.IGNORECASE)`
on a stripped value: remove the leftmost match, i.e. cut at the smallest
position whose suffix is colons/whitespace followed by one of the words. -/
def stripVendorWordAtEnd (l : List Char) : List Char :=
  match (List.range (l.length + 1)).find? (fun p => suffixWordHit (l.drop p)) with
  | some p => l.take p
  | none => l

/-- Modelled from the spec: the validation-rule table normally loaded from
`medical_lab_config.json` (the file is absent from the repository, in which
case the source falls back to the empty table).  A rule carries optional
length bounds and, for `price`, an optional config regex modelled as an
abstract predicate. -/
structure FieldRule where
  min_length : Option Nat
  max_length : Option Nat
  pricePat : Option (String → Bool)

/-- The injected `validation_rules` table. -/
abbrev Rules := List (String × FieldRule)

/-- The `self.validation_rules[field_type]` lookup. -/
def rulesFind (rules : Rules) (f : String) : Option FieldRule :=
  (rules.find? (fun kv => kv.1 == f)).map (·.2)

/-- The allowed-characters class of `_validate_field_with_rules`:
alphanumerics, dash, slash, dot and whitespace. -/
def isAllowedSkuChar (c : Char) : Bool :=
  c.isAlphanum || c == '-' || c == '/' || c == '.' || isPySpace c

/-- Python `re.match` of an `^[class]+$` pattern: the whole string consists of
class characters (nonempty), or everything before a final newline does (`$`
also matches before a trailing newline). -/
def pyMatchFullClass (p : Char → Bool) (l : List Char) : Bool :=
  (¬ l.isEmpty && l.all p) ||
  (l.getLast? == some '\n' && ¬ l.dropLast.isEmpty && l.dropLast.all p)

/-- The `WebCrawlerService._validate_field_with_rules`.  A field with no entry in
the (config-injected) rule table is accepted outright. -/
def validate_field_with_rules (rules : Rules) (value : String)
    (field_type : String) : Bool :=
  match rulesFind rules field_type with
  | none => true
  | some r =>
      if (match r.min_length with | some m => decide (value.length < m) | none => false) then
        false
      else if (match r.max_length with | some m => decide (value.length > m) | none => false) then
        false
      else if field_type == "sku_id" || field_type == "part_number" then
        value.data.any Char.isAlphanum && pyMatchFullClass isAllowedSkuChar value.data
      else if field_type == "price" then
        match r.pricePat with
        | some pat => pat value
        | none => true
      else true

/-- The `WebCrawlerService._clean_and_validate_field`. -/
def clean_and_validate_field (rules : Rules) (value : PyVal)
    (field_type : String) : String :=
  if ¬ pyTruthy value || pyEqStr value "Not found" then "Not found"
  else
    let s := pyStripL (pyStr value).data
    if field_type == "sku_id" || field_type == "part_number" then
      let s1 := stripVendorWordAtStart s
      let s2 := stripVendorWordAtEnd s1
      let s3 := pyStripL s2
      if s3.isEmpty || s3.length < 2 then "Not found"
      else if validate_field_with_rules rules (String.mk s3) field_type then
        String.mk s3
      else "Not found"
    else
      if validate_field_with_rules rules (String.mk s) field_type then
        String.mk s
      else "Not found"

/-- The `re.search(r'\d+\.?\d*', p)` succeeds exactly when `p` contains a digit. -/
def hasDigitAnywhere (l : List Char) : Bool := l.any Char.isDigit

/-- The `WebCrawlerService._clean_and_validate_price`. -/
def clean_and_validate_price (value : PyVal) : String :=
  if ¬ pyTruthy value || pyEqStr value "Not found" then "Not found"
  else
    let p := pyStripL (pyStr value).data
    if matchExact priceP1 p || matchExact priceP2 p || matchExact priceP3 p ||
        matchExact priceP4 p then
      String.mk p
    else
      match scanMatch priceP1 p with
      | some m => String.mk m
      | none =>
          if hasDigitAnywhere p &&
              (p.contains '$' || containsSubL "USD".data (p.map Char.toUpper)) then
            String.mk p
          else "Not found"

/-!
## Structured extraction and site-specific extraction
-/

/-- The `WebCrawlerService._extract_field`.  `none` models the `AttributeError`
raised when `data` is truthy but not a dict (`.get` missing). -/
def extract_field (data : PyVal) (field_name : String) (fallback : String) :
    Option String :=
  if ¬ pyTruthy data then some fallback
  else
    match data with
    | vDict kvs =>
        some (match dictGet kvs field_name with
          | some (vList (x :: _)) => pyStr x
          | some v => if pyTruthy v then pyStr v else fallback
          | none => fallback)
    | _ => none

/-- The `WebCrawlerService._extract_field_with_patterns`. -/
def extract_field_with_patterns (data : PyVal) (field_name fallback : String)
    (markdown_content : String) (patterns : List (List RItem)) : Option String := do
  let value ← extract_field data field_name fallback
  if value = "" || value = "Not found" then
    let pattern_value := extract_from_text patterns markdown_content
    if pattern_value ≠ "" then pure pattern_value else pure value
  else pure value

/-- Modelled from the spec: the `extraction_strategies` table normally loaded
from the absent `medical_lab_config.json` — per site name, a mapping from
selector-category name to selector strings. -/
abbrev SiteStrategies := List (String × List (String × List String))

/-- The `WebCrawlerService._get_site_specific_selectors`: first site whose name is
a case-insensitive substring of the URL. -/
def get_site_specific_selectors (site_strategies : SiteStrategies)
    (url : String) : List (String × List String) :=
  match site_strategies.find? (fun st => containsSubL (lowerL st.1.data) (lowerL url.data)) with
  | some st => st.2
  | none => []

/-- The `selectors.get(key, [])`. -/
def selGet (sels : List (String × List String)) (k : String) : List String :=
  ((sels.find? (fun kv => kv.1 == k)).map (·.2)).getD []

/-- Scan start positions left to right, returning the first success of `f` on
a suffix (leftmost-match search). -/
def scanFor {a : Type} (f : List Char → Option a) : List Char → Option a
  | [] => f []
  | c :: cs => match f (c :: cs) with | some r => some r | none => scanFor f cs

/-- Match `data-<attr>="([^"]+)"` at the head of `s` (the prefix is passed
already assembled), returning the group. -/
def dataAttrHere (pfx : List Char) (s : List Char) : Option (List Char) :=
  if startsWithL pfx s then
    let rest := s.drop pfx.length
    let run := rest.takeWhile (fun c => c != '"')
    if ¬ run.isEmpty && run.length < rest.length then some run else none
  else none

/-- The `re.findall(rf'data-<attr>="([^"]+)"', content)[0]` (selector text treated
literally, as the config-supplied names contain no regex metacharacters). -/
def findDataAttr (attr : List Char) (content : List Char) : Option (List Char) :=
  scanFor (dataAttrHere ("data-".data ++ attr ++ "=\"".data)) content

/-- Match `class="[^"]*<cls>[^"]*"[^>]*>([^<]+)` at the head of `s`, returning
the group. -/
def classTextHere (clsName : List Char) (s : List Char) : Option (List Char) :=
  if startsWithL "class=\"".data s then
    let rest := s.drop 7
    let seg := rest.takeWhile (fun c => c != '"')
    if containsSubL clsName seg && seg.length < rest.length then
      let rest2 := rest.drop (seg.length + 1)
      let gtRun := rest2.takeWhile (fun c => c != '>')
      if gtRun.length < rest2.length then
        let grp := (rest2.drop (gtRun.length + 1)).takeWhile (fun c => c != '<')
        if ¬ grp.isEmpty then some grp else none
      else none
    else none
  else none

/-- The `re.findall(rf'class="[^"]*<cls>[^"]*"[^>]*>([^<]+)', content)[0]`. -/
def findClassText (clsName : List Char) (content : List Char) : Option (List Char) :=
  scanFor (classTextHere clsName) content

/-- The `WebCrawlerService._apply_site_specific_extraction` (its `field_type`
argument is unused by the source and omitted). -/
def apply_site_specific_extraction (current_value : String)
    (selectors : List String) (content : String) : String :=
  if current_value ≠ "" && current_value ≠ "Not found" then current_value
  else loop selectors
where
  loop : List String → String
    | [] => current_value
    | selector :: rest =>
        if containsSubL "data-".data selector.data then
          let attr_name := (selector.replace "[data-" "").replace "]" ""
          match findDataAttr attr_name.data content.data with
          | some m => String.mk m
          | none => loop rest
        else if startsWithL ".".data selector.data then
          let class_name := selector.replace "." ""
          match findClassText class_name.data content.data with
          | some m => String.mk (pyStripL m)
          | none => loop rest
        else loop rest

/-!
## `OllamaContentFilter` (the LLM verifier)
-/

/-- The class of `^[A-Z0-9\-_/]+$` under `re.IGNORECASE`. -/
def isSkuPatternChar (c : Char) : Bool :=
  c.isAlphanum || c == '-' || c == '_' || c == '/'

/-- The class of the part-number pattern, which additionally allows a dot. -/
def isPartPatternChar (c : Char) : Bool := isSkuPatternChar c || c == '.'

/-- One entry of the hard-coded `validation_rules` table of
`_validate_extracted_data`. -/
structure OllamaFieldRule where
  omin : Option Nat
  omax : Option Nat
  opats : Option (List (Char → Bool))

/-- The hard-coded `validation_rules` of
`OllamaContentFilter._validate_extracted_data`. -/
def ollama_validation_rules : List (String × OllamaFieldRule) :=
  [("sku_id", ⟨some 2, some 20, some [isSkuPatternChar]⟩),
   ("part_number", ⟨some 2, some 25, some [isPartPatternChar]⟩),
   ("brand", ⟨some 2, some 50, none⟩),
   ("description", ⟨none, some 200, none⟩)]

/-- Python `len(v)`: defined on strings, lists and dicts; raises (`none`) on
numbers and `None`. -/
def pyLen : PyVal → Option Nat
  | vStr s => some s.length
  | vList l => some l.length
  | vDict d => some d.length
  | _ => none

/-- Python `v[:n]`: slices strings and lists; raises (`none`) on dicts (the
number/None cases never reach it, `len` having raised first). -/
def pyTruncate (v : PyVal) (n : Nat) : Option PyVal :=
  match v with
  | vStr s => some (vStr (String.mk (s.data.take n)))
  | vList l => some (vList (l.take n))
  | _ => none

/-- The length-bound step of `_validate_extracted_data` for one field: below
minimum becomes the sentinel, above maximum is truncated. -/
def boundsStep (r : OllamaFieldRule) (v : PyVal) (len : Nat) : Option PyVal :=
  if (match r.omin with | some m => decide (len < m) | none => false) then
    some (vStr "Not found")
  else if (match r.omax with | some m => decide (len > m) | none => false) then
    match r.omax with
    | some m => pyTruncate v m
    | none => none
  else some v

/-- The `_validate_extracted_data`, one field: fields outside the rule table pass
through unchanged; otherwise length bounds then the shape patterns
(`re.match(pattern, value, re.IGNORECASE)` raises on non-strings). -/
def validate_one_field (field : String) (v : PyVal) : Option PyVal :=
  match (ollama_validation_rules.find? (fun kv => kv.1 == field)).map (·.2) with
  | none => some v
  | some r => do
      let len ← pyLen v
      let v1 ← boundsStep r v len
      match r.opats with
      | none => some v1
      | some ps =>
          if pyEqStr v1 "Not found" then some v1
          else
            match v1 with
            | vStr s =>
                some (if ps.any (fun p => pyMatchFullClass p s.data) then v1
                      else vStr "Not found")
            | _ => none

/-- The `OllamaContentFilter._validate_extracted_data` over the whole dict (in
iteration order); `none` models a raised `TypeError`, which the caller's
outer `except` turns into `{}`. -/
def validate_extracted_data : List (String × PyVal) → Option (List (String × PyVal))
  | [] => some []
  | (f, v) :: rest => do
      let v' ← validate_one_field f v
      let r ← validate_extracted_data rest
      pure ((f, v') :: r)

/-- Outcome of the HTTP call to Ollama: a transport-level exception, or a
parsed `response.json()` body. -/
inductive TransportOutcome where
  | terr
  | tok (status : Nat) (body : List (String × PyVal))

/-- The `OllamaContentFilter.enrich_content`, parameterized over the JSON decoder
(`json.loads` as an oracle: `some` = the parsed object, `none` =
`JSONDecodeError`) and the transport outcome.  Every failure path — transport
error, non-200 status, non-string response field, missing brace pair, parse
failure, or a `TypeError` inside validation — is caught by the source and
yields the empty dict. -/
def enrich_content (decode : String → Option (List (String × PyVal)))
    (t : TransportOutcome) : List (String × PyVal) :=
  match t with
  | .terr => []
  | .tok status body =>
      if status ≠ 200 then []
      else
        match dictGetD body "response" (vStr "") with
        | vStr llm =>
            let json_start := pyFind llm.data '{'
            let json_end := pyRFind llm.data '}' + 1
            if json_start ≥ 0 ∧ json_end > json_start then
              let json_str := String.mk (pySliceL llm.data json_start json_end)
              match decode json_str with
              | none => []
              | some extracted_data =>
                  match validate_extracted_data extracted_data with
                  | none => []
                  | some cleaned_data =>
                      let attributes := dictGetD extracted_data "attributes" (vList [])
                      let attributes :=
                        match attributes with
                        | vList xs => vList xs
                        | _ => vList []
                      dictSet cleaned_data "attributes" attributes
            else []
        | _ => []

/-!
## The product record and the per-product pipeline
-/

/-- Modelled from the spec: the protobuf message `ProductData` (its generated
module is not part of the repository).  All fields are strings defaulting to
the empty string; §3 of the spec lists the same fields. -/
structure ProductData where
  sku_id : String
  part_number : String
  product_name : String
  brand : String
  price : String
  description : String
  product_url : String
  deriving DecidableEq

/-- Python `a or b` on two values. -/
def pyOr (a b : PyVal) : PyVal := if pyTruthy a then a else b

/-- Python `a or b` on two strings. -/
def strOr (a b : String) : String := if a ≠ "" then a else b

/-- The `WebCrawlerService._create_error_product`. -/
def create_error_product (orig : ProductData) : ProductData :=
  ⟨"Not found", "Not found", orig.product_name, strOr orig.brand "Not found",
   strOr orig.price "Not found",
   strOr orig.description "Error occurred during extraction",
   orig.product_url⟩

/-- The `extracted_content` normalization of `_process_crawl_result`
(lines 330-342): falsy content gives the empty dict, a nonempty list gives its
first element, a dict is kept, anything else gives the empty dict. -/
def resolveExtracted (c : PyVal) : PyVal :=
  if ¬ pyTruthy c then vDict []
  else
    match c with
    | vList (x :: _) => x
    | vDict kvs => vDict kvs
    | _ => vDict []

/-- The Ollama merge of `_process_crawl_result`:
`x = enriched_data.get(key, x) if x == "Not found" else x`. -/
def mergeField (enriched_data : List (String × PyVal)) (key : String)
    (cur : String) : PyVal :=
  if cur == "Not found" then dictGetD enriched_data key (vStr cur) else vStr cur

/-- Modelled from the spec: the final `ProductData(...)` construction of
`_process_crawl_result`.  The proto message's fields are strings, so assigning
a non-string value raises `TypeError` (`none`), which the enclosing `except`
turns into an error product.  The `or`-fallbacks are the source's
`product_name or …`, `brand or … or "Not found"`, `description or …`. -/
def buildProduct (orig : ProductData) (sku part price : String)
    (nameV brandV descV : PyVal) : Option ProductData :=
  match pyOr nameV (vStr orig.product_name),
        pyOr (pyOr brandV (vStr orig.brand)) (vStr "Not found"),
        pyOr descV (vStr orig.description) with
  | vStr n, vStr b, vStr d => some ⟨sku, part, n, b, price, d, orig.product_url⟩
  | _, _, _ => none

/-- The phase of `_process_crawl_result` after the six extraction calls have
succeeded: site-specific extraction (lines 362-369), the Ollama merge (lines
374-390), final cleaning (lines 392-395) and the record construction. -/
def processAfterExtract (enrich : String → ProductData → List (String × PyVal))
    (site_selectors : List (String × List String)) (rules : Rules)
    (original_product : ProductData) (markdown_content : String)
    (sku_id part_number product_name brand price description : String) :
    Option ProductData :=
  let sku_id :=
    if ¬ site_selectors.isEmpty then
      apply_site_specific_extraction sku_id (selGet site_selectors "sku_selectors")
        markdown_content
    else sku_id
  let part_number :=
    if ¬ site_selectors.isEmpty then
      apply_site_specific_extraction part_number
        (selGet site_selectors "part_number_selectors") markdown_content
    else part_number
  let price :=
    if ¬ site_selectors.isEmpty then
      apply_site_specific_extraction price (selGet site_selectors "price_selectors")
        markdown_content
    else price
  let merged :=
    if markdown_content ≠ "" then
      let enriched_data := enrich markdown_content original_product
      (mergeField enriched_data "sku_id" sku_id,
       mergeField enriched_data "part_number" part_number,
       mergeField enriched_data "product_name" product_name,
       mergeField enriched_data "brand" brand,
       mergeField enriched_data "price" price,
       mergeField enriched_data "description" description)
    else
      (vStr sku_id, vStr part_number, vStr product_name, vStr brand,
       vStr price, vStr description)
  let skuF := clean_and_validate_field rules merged.1 "sku_id"
  let partF := clean_and_validate_field rules merged.2.1 "part_number"
  let priceF := clean_and_validate_price merged.2.2.2.2.1
  buildProduct original_product skuF partF priceF merged.2.2.1 merged.2.2.2.1
    merged.2.2.2.2.2

/-- The body of `WebCrawlerService._process_crawl_result`'s `try` block;
`none` models an exception escaping to the `except` handler.  `enrich` is the
oracle for `self.content_filter.enrich_content` (which never raises). -/
def processCore (enrich : String → ProductData → List (String × PyVal))
    (site_strategies : SiteStrategies) (rules : Rules)
    (original_product : ProductData) (extracted_content : PyVal)
    (markdown : Option String) : Option ProductData := do
  let extracted_data := resolveExtracted extracted_content
  let markdown_content := markdown.getD ""
  let sku_id ← extract_field_with_patterns extracted_data "sku_id"
    original_product.sku_id markdown_content sku_patterns
  let part_number ← extract_field_with_patterns extracted_data "part_number"
    original_product.part_number markdown_content part_number_patterns
  let product_name ← extract_field extracted_data "product_name"
    original_product.product_name
  let brand ← extract_field extracted_data "brand" original_product.brand
  let price ← extract_field_with_patterns extracted_data "price"
    original_product.price markdown_content price_patterns
  let description ← extract_field extracted_data "description"
    original_product.description
  processAfterExtract enrich
    (get_site_specific_selectors site_strategies original_product.product_url)
    rules original_product markdown_content sku_id part_number product_name
    brand price description

/-- The `WebCrawlerService._process_crawl_result`: the `try` body, with any
exception producing the error product. -/
def process_crawl_result (enrich : String → ProductData → List (String × PyVal))
    (site_strategies : SiteStrategies) (rules : Rules)
    (original_product : ProductData) (extracted_content : PyVal)
    (markdown : Option String) : ProductData :=
  match processCore enrich site_strategies rules original_product
      extracted_content markdown with
  | some p => p
  | none => create_error_product original_product

/-- The `WebCrawlerService._fallback_extraction` (the failed-crawl path). -/
def fallback_extraction (enrich : String → ProductData → List (String × PyVal))
    (original_product : ProductData) (markdown : Option String) : ProductData :=
  let markdown_content := markdown.getD ""
  if markdown_content ≠ "" then
    let sku_id := extract_from_text sku_patterns markdown_content
    let part_number := extract_from_text part_number_patterns markdown_content
    let price := extract_from_text price_patterns markdown_content
    let enriched_data := enrich markdown_content original_product
    let skuV :=
      if sku_id = "" then dictGetD enriched_data "sku_id" (vStr sku_id)
      else vStr sku_id
    let partV :=
      if part_number = "" then dictGetD enriched_data "part_number" (vStr part_number)
      else vStr part_number
    let priceV :=
      if price = "" then dictGetD enriched_data "price" (vStr price)
      else vStr price
    match pyOr skuV (vStr "Not found"), pyOr partV (vStr "Not found"),
        pyOr priceV (vStr "Not found") with
    | vStr s, vStr p, vStr pr =>
        ⟨s, p, original_product.product_name, strOr original_product.brand "Not found",
         pr, original_product.description, original_product.product_url⟩
    | _, _, _ => create_error_product original_product
  else create_error_product original_product

/-- Outcome of `self.crawler.arun(url, config)` for one product: a successful
result (its `extracted_content` and `markdown`), a result with
`success == False`, or an exception. -/
inductive CrawlOutcome where
  | success (extracted_content : PyVal) (markdown : Option String)
  | failure (markdown : Option String)
  | raised

/-- The per-product body of the loop in `get_detailed_product_info`. -/
def processOne (crawl : ProductData → CrawlOutcome)
    (enrich : String → ProductData → List (String × PyVal))
    (site_strategies : SiteStrategies) (rules : Rules)
    (product : ProductData) : ProductData :=
  match crawl product with
  | .success ec md => process_crawl_result enrich site_strategies rules product ec md
  | .failure md => fallback_extraction enrich product md
  | .raised => create_error_product product

/-- The `products[i:i+2]` batching of `get_detailed_product_info`
(`batch_size = 2`). -/
def chunk2 : List ProductData → List (List ProductData)
  | [] => []
  | [a] => [[a]]
  | a :: b :: rest => [a, b] :: chunk2 rest

/-- The `WebCrawlerService.get_detailed_product_info`: process the products in
batches of two (the inter-batch `asyncio.sleep` has no effect on the data),
appending each batch's results in order. -/
def get_detailed_product_info (crawl : ProductData → CrawlOutcome)
    (enrich : String → ProductData → List (String × PyVal))
    (site_strategies : SiteStrategies) (rules : Rules)
    (products : List ProductData) : List ProductData :=
  ((chunk2 products).map
    (fun batch => batch.map (processOne crawl enrich site_strategies rules))).flatten

/-!
## `ProductCrawlerService` (the batch-level entry point)
-/

/-- The `ProductCrawlerService._create_error_product` (differs from the crawler's
only in the description fallback text). -/
def create_error_product_service (product : ProductData) : ProductData :=
  ⟨"Not found", "Not found", product.product_name, strOr product.brand "Not found",
   strOr product.price "Not found",
   strOr product.description "Error occurred during enrichment",
   product.product_url⟩

/-- Outcome of `await self.web_crawler.get_detailed_product_info(products)`:
a returned list, or an exception. -/
inductive BatchOutcome where
  | bok (result : List ProductData)
  | bexn

/-- The `ProductCrawlerService.enrich_products`: empty input short-circuits to the
empty list before the crawler is consulted; an exception from the crawler is
caught and every input is degraded to an error product. -/
def enrich_products (step : List ProductData → BatchOutcome)
    (products : List ProductData) : List ProductData :=
  if products.isEmpty then []
  else
    match step products with
    | .bok out => out
    | .bexn => products.map create_error_product_service

/-!
## Predicates used by the theorem statements
-/

/-- The shapes `_clean_and_validate_price` can accept: one of the four
anchored price patterns, or the lenient digits-with-currency-marker form. -/
def priceShape (s : String) : Bool :=
  matchExact priceP1 s.data || matchExact priceP2 s.data ||
  matchExact priceP3 s.data || matchExact priceP4 s.data ||
  (hasDigitAnywhere s.data &&
    (s.data.contains '$' || containsSubL "USD".data (s.data.map Char.toUpper)))

/-- What `_clean_and_validate_field` guarantees of its output on the
`sku_id`/`part_number` fields: the sentinel, or a nonempty stripped value of
length ≥ 2 that passes the (config-injected) rule table. -/
def skuPartGood (rules : Rules) (field_type s : String) : Bool :=
  s == "Not found" ||
  (s ≠ "" && decide (2 ≤ s.length) && pyStrip s == s &&
    validate_field_with_rules rules s field_type)

/-- What `_clean_and_validate_price` guarantees of its output: the sentinel,
or a nonempty stripped value in one of the accepted shapes. -/
def priceGood (s : String) : Bool :=
  s == "Not found" || (s ≠ "" && pyStrip s == s && priceShape s)

/-- Every value of the candidate dict is a string (the well-typed model
response; used as a hypothesis where a non-string value would make the proto
constructor raise). -/
def allValuesStr (d : List (String × PyVal)) : Bool :=
  d.all (fun kv => isVStr kv.2)

/-- The `attributes` shape check of `enrich_content`: a list passes through
wholesale, anything else collapses to the empty list. -/
def asAttrList : PyVal → PyVal
  | vList xs => vList xs
  | _ => vList []

/-- The tail of `enrich_content` after the brace-pair substring has been cut
out: decode it, validate it, re-attach the shape-checked raw `attributes`.
Used to state which substring the source hands to `json.loads`. -/
def postParse (decode : String → Option (List (String × PyVal)))
    (json_str : String) : List (String × PyVal) :=
  match decode json_str with
  | none => []
  | some extracted_data =>
      match validate_extracted_data extracted_data with
      | none => []
      | some cleaned_data =>
          dictSet cleaned_data "attributes"
            (asAttrList (dictGetD extracted_data "attributes" (vList [])))

/-- The brace-pair guard of `enrich_content`
(`json_start >= 0 and json_end > json_start`). -/
def hasBracePair (llm : String) : Bool :=
  pyFind llm.data '{' ≥ 0 && pyRFind llm.data '}' + 1 > pyFind llm.data '{'

/-!
# Theorems

## Basic facts about `str.strip()`
-/

/-- The `pyStripL` is dropping the leading whitespace run, then the trailing one. -/
theorem pyStripL_eq_rdrop (l : List Char) :
    pyStripL l = List.rdropWhile isPySpace (List.dropWhile isPySpace l) := rfl

/-- Stripping is idempotent. -/
theorem pyStripL_idem (l : List Char) : pyStripL (pyStripL l) = pyStripL l := by
  rw [pyStripL_eq_rdrop, pyStripL_eq_rdrop]
  have hd : List.dropWhile isPySpace
      (List.rdropWhile isPySpace (List.dropWhile isPySpace l)) =
      List.rdropWhile isPySpace (List.dropWhile isPySpace l) := by
    rw [List.dropWhile_eq_self_iff]
    intro hl
    have hpre := List.rdropWhile_prefix (p := isPySpace)
      (l := List.dropWhile isPySpace l)
    have h0 : 0 < (List.dropWhile isPySpace l).length :=
      lt_of_lt_of_le hl hpre.length_le
    have hget := hpre.getElem hl
    simp only [List.get_eq_getElem]
    rw [hget]
    have h1 := List.dropWhile_get_zero_not isPySpace l h0
    simpa only [List.get_eq_getElem] using h1
  rw [hd, List.rdropWhile_idempotent]

/-- A list with no whitespace anywhere is unchanged by stripping. -/
theorem pyStripL_of_no_space (l : List Char)
    (h : ∀ c ∈ l, isPySpace c = false) : pyStripL l = l := by
  rw [pyStripL_eq_rdrop]
  have hd : List.dropWhile isPySpace l = l := by
    rw [List.dropWhile_eq_self_iff]
    intro hl
    have hx := h _ (List.get_mem l 0 hl)
    simp only [List.get_eq_getElem] at hx
    simp [hx]
  rw [hd, List.rdropWhile_eq_self_iff]
  intro hl
  have := h _ (List.getLast_mem hl)
  simp [this]

/-- The `pyStrip` fixes any string built from an already-stripped character
list. -/
theorem pyStrip_mk_stripped (l : List Char) :
    pyStrip (String.mk (pyStripL l)) = String.mk (pyStripL l) := by
  show String.mk (pyStripL (pyStripL l)) = String.mk (pyStripL l)
  rw [pyStripL_idem]

/-- The `String.mk` of a nonempty list is not the empty string. -/
theorem mk_ne_empty_of_ne_nil {l : List Char} (h : l ≠ []) :
    String.mk l ≠ "" := by
  intro hmk
  exact h (congrArg String.data hmk)

/-!
## Facts about the regex engine
-/

/-- Inversion for `tryKs`: success means some count in `[lo, k]` succeeds. -/
theorem tryKs_eq_some {lo : Nat} {f : Nat → Option Nat} :
    ∀ {k n : Nat}, tryKs lo f k = some n → ∃ j, lo ≤ j ∧ j ≤ k ∧ f j = some n := by
  intro k
  induction k with
  | zero =>
      intro n h
      unfold tryKs at h
      split at h
      · exact ⟨0, by omega, by omega, h⟩
      · exact absurd h (by simp)
  | succ k ih =>
      intro n h
      unfold tryKs at h
      split at h
      · exact absurd h (by simp)
      · rename_i hlo
        revert h
        split
        · rename_i n' hf
          intro h
          cases h
          exact ⟨k + 1, by omega, le_refl _, hf⟩
        · intro h
          obtain ⟨j, h1, h2, h3⟩ := ih h
          exact ⟨j, h1, by omega, h3⟩

/-- Introduction for `anyKs`: a witness in `[lo, k]` suffices. -/
theorem anyKs_eq_true_of {lo : Nat} {f : Nat → Bool} {j : Nat} (hj : lo ≤ j) :
    ∀ {k : Nat}, j ≤ k → f j = true → anyKs lo f k = true := by
  intro k
  induction k with
  | zero =>
      intro hk hf
      have hj0 : j = 0 := by omega
      subst hj0
      unfold anyKs
      simp only [Bool.and_eq_true, beq_iff_eq]
      exact ⟨by omega, hf⟩
  | succ k ih =>
      intro hk hf
      unfold anyKs
      have : ¬ (k + 1 < lo) := by omega
      rw [if_neg this]
      rcases Nat.lt_or_ge j (k + 1) with hlt | hge
      · rw [ih (by omega) hf]
        simp
      · have : j = k + 1 := by omega
        subst this
        rw [hf]
        simp

/-- Inversion for `anyKs`. -/
theorem anyKs_eq_true_elim {lo : Nat} {f : Nat → Bool} :
    ∀ {k : Nat}, anyKs lo f k = true → ∃ j, lo ≤ j ∧ j ≤ k ∧ f j = true := by
  intro k
  induction k with
  | zero =>
      intro h
      unfold anyKs at h
      simp only [Bool.and_eq_true, beq_iff_eq] at h
      exact ⟨0, by omega, le_refl _, h.2⟩
  | succ k ih =>
      intro h
      unfold anyKs at h
      split at h
      · exact absurd h (by simp)
      · rename_i hlo
        rcases Bool.or_eq_true_iff.mp h with hf | hr
        · exact ⟨k + 1, by omega, le_refl _, hf⟩
        · obtain ⟨j, h1, h2, h3⟩ := ih hr
          exact ⟨j, h1, by omega, h3⟩

/-- The upper repetition bound used by the engine for an item on a string. -/
def itemMax (it : RItem) (s : List Char) : Nat :=
  match it.hi with
  | none => (s.takeWhile it.cl).length
  | some h => min h (s.takeWhile it.cl).length

/-- The `matchSeq` on a cons pattern, stated via `itemMax`. -/
theorem matchSeq_cons (it : RItem) (rest : List RItem) (s : List Char) :
    matchSeq (it :: rest) s =
      tryKs it.lo (fun k => (matchSeq rest (s.drop k)).map (k + ·))
        (itemMax it s) := rfl

/-- The `matchExact` on a cons pattern, stated via `itemMax`. -/
theorem matchExact_cons (it : RItem) (rest : List RItem) (s : List Char) :
    matchExact (it :: rest) s =
      anyKs it.lo (fun k => matchExact rest (s.drop k)) (itemMax it s) := rfl

/-- The `itemMax` is bounded by the class run. -/
theorem itemMax_le_run (it : RItem) (s : List Char) :
    itemMax it s ≤ (s.takeWhile it.cl).length := by
  unfold itemMax
  cases it.hi with
  | none => exact le_refl _
  | some h => exact Nat.min_le_right _ _

/-- The first `j ≤ (takeWhile p s).length` characters of `s` all satisfy
`p`. -/
theorem all_take_of_le_takeWhile {p : Char → Bool} :
    ∀ (s : List Char) (j : Nat), j ≤ (s.takeWhile p).length →
      (s.take j).all p = true := by
  intro s
  induction s with
  | nil =>
      intro j hj
      simp only [List.takeWhile_nil, List.length_nil, Nat.le_zero] at hj
      subst hj
      rfl
  | cons c cs ih =>
      intro j hj
      cases j with
      | zero => rfl
      | succ j =>
          by_cases hpc : p c
          · simp only [List.takeWhile_cons, hpc, if_true, List.length_cons,
              Nat.succ_le_succ_iff] at hj
            simp only [List.take_succ_cons, List.all_cons, hpc, Bool.true_and]
            exact ih j hj
          · rw [List.takeWhile_cons, if_neg hpc] at hj
            simp at hj

/-- Conversely, if the first `j` characters all satisfy `p`, the `takeWhile`
run is at least `j` long. -/
theorem le_takeWhile_of_all_take {p : Char → Bool} :
    ∀ (s : List Char) (j : Nat), j ≤ s.length → (s.take j).all p = true →
      j ≤ (s.takeWhile p).length := by
  intro s
  induction s with
  | nil =>
      intro j hj _
      simpa using hj
  | cons c cs ih =>
      intro j hj hall
      cases j with
      | zero => omega
      | succ j =>
          simp only [List.take_succ_cons, List.all_cons, Bool.and_eq_true] at hall
          simp only [List.takeWhile_cons, hall.1, if_true, List.length_cons,
            Nat.succ_le_succ_iff]
          exact ih j (by simpa using hj) hall.2

/-- A successful greedy match consumes at most the whole string, and the
consumed prefix is an exact match of the pattern. -/
theorem matchSeq_exact :
    ∀ (pat : List RItem) (s : List Char) (n : Nat),
      matchSeq pat s = some n → n ≤ s.length ∧ matchExact pat (s.take n) = true := by
  intro pat
  induction pat with
  | nil =>
      intro s n h
      unfold matchSeq at h
      cases h
      exact ⟨Nat.zero_le _, rfl⟩
  | cons it rest ih =>
      intro s n h
      rw [matchSeq_cons] at h
      obtain ⟨j, hlo, hle, hj⟩ := tryKs_eq_some h
      simp only [Option.map_eq_some'] at hj
      obtain ⟨n', hn', rfl⟩ := hj
      obtain ⟨hlen, hex⟩ := ih (s.drop j) n' hn'
      simp only [List.length_drop] at hlen
      have hrun : j ≤ (s.takeWhile it.cl).length :=
        le_trans hle (itemMax_le_run it s)
      have hslen : (s.takeWhile it.cl).length ≤ s.length :=
        (List.takeWhile_prefix it.cl).length_le
      refine ⟨by omega, ?_⟩
      rw [matchExact_cons]
      have htlen : (s.take (j + n')).length = j + n' := by
        rw [List.length_take]
        omega
      have htake : (s.take (j + n')).take j = s.take j := by
        rw [List.take_take]
        congr 1
        omega
      have hrun_t : j ≤ ((s.take (j + n')).takeWhile it.cl).length := by
        apply le_takeWhile_of_all_take _ j (by omega)
        rw [htake]
        exact all_take_of_le_takeWhile s j hrun
      have hdrop_t : (s.take (j + n')).drop j = (s.drop j).take n' :=
        (List.take_drop j n' s).symm
      apply anyKs_eq_true_of hlo
      · unfold itemMax
        cases hhi : it.hi with
        | none => exact hrun_t
        | some hb =>
            have hjb : j ≤ hb := by
              unfold itemMax at hle
              rw [hhi] at hle
              simp only [Nat.min_def] at hle
              split at hle <;> omega
            exact le_min hjb hrun_t
      · rw [hdrop_t]
        exact hex

/-- The leftmost `findall` match is an exact match of the pattern. -/
theorem scanMatch_exact :
    ∀ (s : List Char) (pat : List RItem) (m : List Char),
      scanMatch pat s = some m → matchExact pat m = true := by
  intro s
  induction s with
  | nil =>
      intro pat m h
      unfold scanMatch at h
      simp only [Option.map_eq_some'] at h
      obtain ⟨n, hn, rfl⟩ := h
      have h2 := (matchSeq_exact pat [] n hn).2
      simpa using h2
  | cons c cs ih =>
      intro pat m h
      unfold scanMatch at h
      revert h
      split
      · rename_i n hn
        intro h
        cases h
        exact (matchSeq_exact pat (c :: cs) n hn).2
      · intro h
        exact ih pat m h

/-- Every character of an exact match satisfies some item's class. -/
theorem matchExact_chars :
    ∀ (pat : List RItem) (s : List Char), matchExact pat s = true →
      ∀ c ∈ s, ∃ it ∈ pat, it.cl c = true := by
  intro pat
  induction pat with
  | nil =>
      intro s h c hc
      unfold matchExact at h
      rw [List.isEmpty_iff] at h
      subst h
      simp at hc
  | cons it rest ih =>
      intro s h c hc
      rw [matchExact_cons] at h
      obtain ⟨j, hlo, hle, hj⟩ := anyKs_eq_true_elim h
      have hrun : j ≤ (s.takeWhile it.cl).length :=
        le_trans hle (itemMax_le_run it s)
      rcases List.mem_append.mp
          (by rw [← List.take_append_drop j s] at hc; exact hc) with hmem | hmem
      · refine ⟨it, List.mem_cons_self _ _, ?_⟩
        have hall := all_take_of_le_takeWhile s j hrun
        exact List.all_eq_true.mp hall c hmem
      · obtain ⟨it', hit', hcl⟩ := ih (s.drop j) hj c hmem
        exact ⟨it', List.mem_cons_of_mem _ hit', hcl⟩

/-!
## Character-class facts
-/

/-- Digits are not whitespace. -/
theorem no_space_of_digit {c : Char} (h : c.isDigit = true) :
    isPySpace c = false := by
  rcases Bool.eq_false_or_eq_true (isPySpace c) with ht | hf
  · exfalso
    simp only [isPySpace, Bool.or_eq_true, beq_iff_eq] at ht
    rcases ht with ((((rfl | rfl) | rfl) | rfl) | rfl) | rfl <;> exact absurd h (by decide)
  · exact hf

/-- No character matched by the `\$\d+[,\d]*\.?\d*` pattern is whitespace. -/
theorem priceP1_no_space : ∀ it ∈ priceP1, ∀ c : Char, it.cl c = true →
    isPySpace c = false := by
  intro it hit c hcl
  simp only [priceP1, List.mem_cons, List.not_mem_nil, or_false] at hit
  rcases hit with rfl | rfl | rfl | rfl | rfl
  · simp only [one, litC, beq_iff_eq] at hcl
    subst hcl
    decide
  · exact no_space_of_digit hcl
  · simp only [star, isDigitComma, Bool.or_eq_true, beq_iff_eq] at hcl
    rcases hcl with h | rfl
    · exact no_space_of_digit h
    · decide
  · simp only [opt, litC, beq_iff_eq] at hcl
    subst hcl
    decide
  · exact no_space_of_digit hcl

/-- A whitespace-free character list does not spell the sentinel. -/
theorem mk_no_space_ne_sentinel {m : List Char}
    (h : ∀ c ∈ m, isPySpace c = false) : String.mk m ≠ "Not found" := by
  intro he
  have hm : m = "Not found".data := congrArg String.data he
  subst hm
  exact absurd (h ' ' (by decide)) (by decide)

/-!
## What the cleaning functions guarantee of their outputs
-/

/-- The `String.mk` and `String.length`. -/
theorem length_mk (l : List Char) : (String.mk l).length = l.length := rfl

/-- The `clean_and_validate_field` on the identifier/part-number fields returns
the sentinel or a nonempty, stripped, length-≥ 2 value passing the rule
table. -/
theorem clean_field_spec (rules : Rules) (v : PyVal) (ft : String)
    (hft : ft = "sku_id" ∨ ft = "part_number") :
    clean_and_validate_field rules v ft = "Not found" ∨
      (clean_and_validate_field rules v ft ≠ "" ∧
       2 ≤ (clean_and_validate_field rules v ft).length ∧
       pyStrip (clean_and_validate_field rules v ft) =
         clean_and_validate_field rules v ft ∧
       validate_field_with_rules rules (clean_and_validate_field rules v ft) ft
         = true) := by
  have hb : (ft == "sku_id" || ft == "part_number") = true := by
    rcases hft with rfl | rfl <;> decide
  simp only [clean_and_validate_field, hb, if_true]
  split
  · exact Or.inl rfl
  · split
    · exact Or.inl rfl
    · rename_i hguard
      split
      · rename_i hval
        right
        rw [Bool.not_eq_true, Bool.or_eq_false_iff] at hguard
        obtain ⟨hemp, hlen⟩ := hguard
        refine ⟨?_, ?_, ?_, hval⟩
        · apply mk_ne_empty_of_ne_nil
          intro hnil
          rw [hnil] at hemp
          simp at hemp
        · rw [length_mk]
          simp only [decide_eq_false_iff_not, Nat.not_lt] at hlen
          exact hlen
        · exact pyStrip_mk_stripped _
      · exact Or.inl rfl

/-- The `clean_and_validate_price` returns the sentinel or a nonempty stripped
value in one of the accepted price shapes. -/
theorem clean_price_spec (v : PyVal) :
    clean_and_validate_price v = "Not found" ∨
      (clean_and_validate_price v ≠ "" ∧
       pyStrip (clean_and_validate_price v) = clean_and_validate_price v ∧
       priceShape (clean_and_validate_price v) = true) := by
  simp only [clean_and_validate_price]
  split
  · exact Or.inl rfl
  · split
    · rename_i hm
      right
      refine ⟨?_, pyStrip_mk_stripped _, ?_⟩
      · apply mk_ne_empty_of_ne_nil
        intro hnil
        rw [hnil] at hm
        exact absurd hm (by decide)
      · unfold priceShape
        rw [Bool.or_eq_true]
        left
        exact hm
    · rename_i hnm
      split
      · rename_i m hscan
        right
        have hex := scanMatch_exact _ _ _ hscan
        have hns : ∀ c ∈ m, isPySpace c = false := fun c hc => by
          obtain ⟨it, hit, hcl⟩ := matchExact_chars priceP1 m hex c hc
          exact priceP1_no_space it hit c hcl
        refine ⟨?_, ?_, ?_⟩
        · apply mk_ne_empty_of_ne_nil
          intro hnil
          rw [hnil] at hex
          exact absurd hex (by decide)
        · show pyStrip (String.mk m) = String.mk m
          show String.mk (pyStripL m) = String.mk m
          rw [pyStripL_of_no_space m hns]
        · unfold priceShape
          rw [Bool.or_eq_true, Bool.or_eq_true, Bool.or_eq_true, Bool.or_eq_true]
          left; left; left; left
          exact hex
      · split
        · rename_i hlen
          right
          rw [Bool.and_eq_true] at hlen
          refine ⟨?_, pyStrip_mk_stripped _, ?_⟩
          · apply mk_ne_empty_of_ne_nil
            intro hnil
            have hd := hlen.1
            rw [hnil] at hd
            simp [hasDigitAnywhere] at hd
          · unfold priceShape
            rw [Bool.or_eq_true]
            right
            rw [Bool.and_eq_true]
            exact ⟨hlen.1, hlen.2⟩
        · exact Or.inl rfl

/-- Structure eta: rebuilding a string from its characters is the identity. -/
theorem mk_data (s : String) : String.mk s.data = s := rfl

/-- Cleaning the sentinel returns the sentinel (any field, any rules). -/
theorem clean_field_sentinel (rules : Rules) (ft : String) :
    clean_and_validate_field rules (vStr "Not found") ft = "Not found" := by
  simp [clean_and_validate_field, pyTruthy, pyEqStr]

/-- Price-cleaning the sentinel returns the sentinel. -/
theorem clean_price_sentinel :
    clean_and_validate_price (vStr "Not found") = "Not found" := by
  simp [clean_and_validate_price, pyTruthy, pyEqStr]

/-- The falsy-or-sentinel guard of the two cleaning functions, evaluated on a
nonempty non-sentinel string. -/
theorem clean_guard_false (w : String) (hne : w ≠ "") (hnf : w ≠ "Not found") :
    (decide ¬ pyTruthy (vStr w) = true || pyEqStr (vStr w) "Not found") = false := by
  simp [pyTruthy, pyEqStr, hne, hnf]

/-- The `pyStr` on a string value. -/
theorem pyStr_vStr (s : String) : pyStr (vStr s) = s := rfl

/-- The characters of a rebuilt string. -/
theorem data_mk (l : List Char) : (String.mk l).data = l := rfl

/-- Price cleaning is idempotent: re-validating its own output returns the
output unchanged. -/
theorem clean_price_idem (v : PyVal) :
    clean_and_validate_price (vStr (clean_and_validate_price v)) =
      clean_and_validate_price v := by
  by_cases hg : (decide ¬ pyTruthy v = true || pyEqStr v "Not found") = true
  · have hw : clean_and_validate_price v = "Not found" := by
      simp only [clean_and_validate_price, hg, if_true]
    rw [hw]
    exact clean_price_sentinel
  · have hg' := Bool.eq_false_iff.mpr hg
    set X := pyStripL (pyStr v).data with hX
    have hXs : pyStripL X = X := by rw [hX]; exact pyStripL_idem _
    have hbody : clean_and_validate_price v =
        (if (matchExact priceP1 X || matchExact priceP2 X || matchExact priceP3 X ||
            matchExact priceP4 X) = true then String.mk X
         else
           match scanMatch priceP1 X with
           | some m => String.mk m
           | none =>
               if (hasDigitAnywhere X && (X.contains '$' ||
                   containsSubL "USD".data (X.map Char.toUpper))) = true then
                 String.mk X
               else "Not found") := by
      simp only [clean_and_validate_price, hg', Bool.false_eq_true, if_false]
    rw [hbody]
    by_cases hm : (matchExact priceP1 X || matchExact priceP2 X ||
        matchExact priceP3 X || matchExact priceP4 X) = true
    · rw [if_pos hm]
      have hXne : X ≠ [] := by
        intro hnil
        rw [hnil] at hm
        exact absurd hm (by decide)
      have hnf : String.mk X ≠ "Not found" := by
        intro he
        have hdc : X = "Not found".data := congrArg String.data he
        rw [hdc] at hm
        exact absurd hm (by decide)
      have hg2 := clean_guard_false _ (mk_ne_empty_of_ne_nil hXne) hnf
      simp only [clean_and_validate_price, hg2, Bool.false_eq_true, if_false,
        pyStr_vStr, data_mk, hXs, hm, if_true]
    · have hm' := Bool.eq_false_iff.mpr hm
      rw [if_neg hm]
      rcases hscan : scanMatch priceP1 X with _ | m
      · simp only [hscan]
        by_cases hlen : (hasDigitAnywhere X && (X.contains '$' ||
            containsSubL "USD".data (X.map Char.toUpper))) = true
        · rw [if_pos hlen]
          have hXne : X ≠ [] := by
            intro hnil
            rw [hnil] at hlen
            exact absurd hlen (by decide)
          have hnf : String.mk X ≠ "Not found" := by
            intro he
            have hdc : X = "Not found".data := congrArg String.data he
            rw [hdc] at hlen
            exact absurd hlen (by decide)
          have hg2 := clean_guard_false _ (mk_ne_empty_of_ne_nil hXne) hnf
          simp only [clean_and_validate_price, hg2, Bool.false_eq_true, if_false,
            pyStr_vStr, data_mk, hXs, hm', hscan, hlen, if_true]
        · rw [if_neg hlen]
          exact clean_price_sentinel
      · simp only [hscan]
        have hex := scanMatch_exact _ _ _ hscan
        have hns : ∀ c ∈ m, isPySpace c = false := fun c hc => by
          obtain ⟨it, hit, hcl⟩ := matchExact_chars priceP1 m hex c hc
          exact priceP1_no_space it hit c hcl
        have hmne : m ≠ [] := by
          intro hnil
          rw [hnil] at hex
          exact absurd hex (by decide)
        have hms : pyStripL m = m := pyStripL_of_no_space m hns
        have hg2 := clean_guard_false _ (mk_ne_empty_of_ne_nil hmne)
          (mk_no_space_ne_sentinel hns)
        simp only [clean_and_validate_price, hg2, Bool.false_eq_true, if_false,
          pyStr_vStr, data_mk, hms, hex, Bool.true_or, if_true]

/-- Cleaning a `sku_id`/`part_number` value twice gives the same result as
cleaning once, provided the first cleaning's output carries no strippable
leading or trailing vendor word. -/
theorem clean_field_idem (rules : Rules) (v : PyVal) (ft : String)
    (hft : ft = "sku_id" ∨ ft = "part_number")
    (hpre : stripVendorWordAtStart (clean_and_validate_field rules v ft).data =
      (clean_and_validate_field rules v ft).data)
    (hsuf : stripVendorWordAtEnd (clean_and_validate_field rules v ft).data =
      (clean_and_validate_field rules v ft).data) :
    clean_and_validate_field rules (vStr (clean_and_validate_field rules v ft)) ft
      = clean_and_validate_field rules v ft := by
  rcases clean_field_spec rules v ft hft with hnf | ⟨hne, hlen, hstr, hval⟩
  · rw [hnf]
    exact clean_field_sentinel rules ft
  · by_cases hw : clean_and_validate_field rules v ft = "Not found"
    · rw [hw]
      exact clean_field_sentinel rules ft
    · have hb : (ft == "sku_id" || ft == "part_number") = true := by
        rcases hft with rfl | rfl <;> decide
      set W := clean_and_validate_field rules v ft with hW
      have hg := clean_guard_false W hne hw
      have hsd : pyStripL W.data = W.data := congrArg String.data hstr
      have hdne : W.data ≠ [] := by
        intro hnil
        apply hne
        rw [← mk_data W, hnil]
      have hguard : (W.data.isEmpty || decide (W.data.length < 2)) = false := by
        rw [Bool.or_eq_false_iff]
        constructor
        · rcases hd : W.data with _ | ⟨c, cs⟩
          · exact absurd hd hdne
          · rfl
        · simp only [decide_eq_false_iff_not, Nat.not_lt]
          exact hlen
      simp only [clean_and_validate_field, hg, Bool.false_eq_true, if_false, hb,
        if_true, pyStr_vStr, hsd, hpre, hsuf, hguard, mk_data, hval]

/-!
## Pipeline-structure lemmas
-/

/-- Batching in twos and concatenating the batch results is just a map. -/
theorem chunk2_flatten_map (f : ProductData → ProductData) :
    ∀ l : List ProductData, ((chunk2 l).map (fun b => b.map f)).flatten = l.map f
  | [] => rfl
  | [a] => rfl
  | a :: b :: rest => by
      simp only [chunk2, List.map_cons, List.flatten_cons]
      rw [chunk2_flatten_map f rest]
      rfl

/-- The `get_detailed_product_info` is the per-product processing mapped over the
input list, in order. -/
theorem get_detailed_eq_map (crawl : ProductData → CrawlOutcome)
    (enrich : String → ProductData → List (String × PyVal))
    (st : SiteStrategies) (rules : Rules) (products : List ProductData) :
    get_detailed_product_info crawl enrich st rules products =
      products.map (processOne crawl enrich st rules) := by
  unfold get_detailed_product_info
  exact chunk2_flatten_map _ products

/-- The error product keeps the input's URL. -/
theorem create_error_product_url (p : ProductData) :
    (create_error_product p).product_url = p.product_url := rfl

/-- A successfully constructed record keeps the input's URL. -/
theorem buildProduct_url {o : ProductData} {sku part price : String}
    {nV bV dV : PyVal} {q : ProductData}
    (h : buildProduct o sku part price nV bV dV = some q) :
    q.product_url = o.product_url := by
  unfold buildProduct at h
  split at h
  · cases h
    rfl
  · exact absurd h (by simp)

/-- The `brand or … or "Not found"` chain never produces the empty string. -/
theorem brand_or_ne {x : PyVal} {b : String}
    (h : pyOr x (vStr "Not found") = vStr b) : b ≠ "" := by
  unfold pyOr at h
  split at h
  · rename_i ht
    subst h
    simpa [pyTruthy] using ht
  · injection h with h2
    subst h2
    decide

/-- A successfully constructed record's brand is never the empty string. -/
theorem buildProduct_brand_ne {o : ProductData} {sku part price : String}
    {nV bV dV : PyVal} {q : ProductData}
    (h : buildProduct o sku part price nV bV dV = some q) : q.brand ≠ "" := by
  unfold buildProduct at h
  split at h
  · rename_i n b d hn hb hd
    cases h
    show b ≠ ""
    exact brand_or_ne hb
  · exact absurd h (by simp)

/-- A successfully constructed record's other fields. -/
theorem buildProduct_fields {o : ProductData} {sku part price : String}
    {nV bV dV : PyVal} {q : ProductData}
    (h : buildProduct o sku part price nV bV dV = some q) :
    q.sku_id = sku ∧ q.part_number = part ∧ q.price = price := by
  unfold buildProduct at h
  split at h
  · cases h
    exact ⟨rfl, rfl, rfl⟩
  · exact absurd h (by simp)

/-- The fallback-extraction record keeps the input's URL. -/
theorem fallback_url (enrich : String → ProductData → List (String × PyVal))
    (p : ProductData) (md : Option String) :
    (fallback_extraction enrich p md).product_url = p.product_url := by
  simp only [fallback_extraction]
  split
  · split <;> rfl
  · rfl

/-- Inversion of `processAfterExtract`: on success, the record comes from
`buildProduct` applied to the cleaned merged fields. -/
theorem processAfterExtract_eq_buildProduct (enrich : String → ProductData →
      List (String × PyVal)) (sels : List (String × List String)) (rules : Rules)
    (o : ProductData) (mc : String) (s1 s2 s3 s4 s5 s6 : String) :
    ∃ m1 m2 m5 : PyVal, ∃ n3 b4 d6 : PyVal,
      processAfterExtract enrich sels rules o mc s1 s2 s3 s4 s5 s6 =
        buildProduct o (clean_and_validate_field rules m1 "sku_id")
          (clean_and_validate_field rules m2 "part_number")
          (clean_and_validate_price m5) n3 b4 d6 := by
  unfold processAfterExtract
  exact ⟨_, _, _, _, _, _, rfl⟩

/-- The `processCore` preserves the URL. -/
theorem processCore_url {enrich : String → ProductData → List (String × PyVal)}
    {st : SiteStrategies} {rules : Rules} {o : ProductData} {ec : PyVal}
    {md : Option String} {q : ProductData}
    (h : processCore enrich st rules o ec md = some q) :
    q.product_url = o.product_url := by
  simp only [processCore, bind, Option.bind_eq_some] at h
  obtain ⟨a1, -, h⟩ := h
  obtain ⟨a2, -, h⟩ := h
  obtain ⟨a3, -, h⟩ := h
  obtain ⟨a4, -, h⟩ := h
  obtain ⟨a5, -, h⟩ := h
  obtain ⟨a6, -, h⟩ := h
  obtain ⟨m1, m2, m5, n3, b4, d6, heq⟩ := processAfterExtract_eq_buildProduct
    enrich (get_site_specific_selectors st o.product_url) rules o (md.getD "")
    a1 a2 a3 a4 a5 a6
  rw [heq] at h
  exact buildProduct_url h

/-- The `process_crawl_result` preserves the URL. -/
theorem process_crawl_result_url (enrich : String → ProductData →
      List (String × PyVal)) (st : SiteStrategies) (rules : Rules)
    (o : ProductData) (ec : PyVal) (md : Option String) :
    (process_crawl_result enrich st rules o ec md).product_url = o.product_url := by
  unfold process_crawl_result
  rcases h : processCore enrich st rules o ec md with _ | q
  · rfl
  · exact processCore_url h

/-- One pipeline step preserves the URL on every path. -/
theorem processOne_url (crawl : ProductData → CrawlOutcome)
    (enrich : String → ProductData → List (String × PyVal))
    (st : SiteStrategies) (rules : Rules) (p : ProductData) :
    (processOne crawl enrich st rules p).product_url = p.product_url := by
  unfold processOne
  cases crawl p with
  | success ec md => exact process_crawl_result_url enrich st rules p ec md
  | failure md => exact fallback_url enrich p md
  | raised => rfl


/-!
## The claims
-/

/-- Claim **C1**: for every input list, the batch enrichment
`get_detailed_product_info` returns a list of exactly the same length, in the
same order, and for every index the output record's `product_url` equals the
input record's `product_url` — for every behaviour of the crawl and
model-enrichment oracles (which covers per-item crawl failures and
exceptions) and every injected configuration. -/
theorem claim_C1_order_length_url (crawl : ProductData → CrawlOutcome)
    (enrich : String → ProductData → List (String × PyVal))
    (st : SiteStrategies) (rules : Rules) (products : List ProductData) :
    (get_detailed_product_info crawl enrich st rules products).length =
      products.length ∧
    ∀ i : Nat,
      ((get_detailed_product_info crawl enrich st rules products)[i]?).map
          (·.product_url) =
        (products[i]?).map (·.product_url) := by
  rw [get_detailed_eq_map]
  refine ⟨List.length_map _ _, ?_⟩
  intro i
  rw [List.getElem?_map]
  cases hp : products[i]? with
  | none => rfl
  | some p =>
      simp only [Option.map_some']
      rw [processOne_url]

/-- Claim **C10**: the batch entry point `enrich_products` returns the empty list
on empty input whatever the crawler step does (the step is not consulted),
and when the crawler step raises on a nonempty input it still returns one
record per input, preserving `product_url` and `product_name` and setting
`sku_id` and `part_number` to the sentinel. -/
theorem claim_C10_batch_entry_never_raises
    (f : List ProductData → BatchOutcome) (ps : List ProductData) :
    enrich_products f [] = [] ∧
    (ps ≠ [] → f ps = BatchOutcome.bexn →
      (enrich_products f ps).length = ps.length ∧
      ∀ i : Nat,
        ((enrich_products f ps)[i]?).map (·.product_url) =
          (ps[i]?).map (·.product_url) ∧
        ((enrich_products f ps)[i]?).map (·.product_name) =
          (ps[i]?).map (·.product_name) ∧
        ((enrich_products f ps)[i]?).map (·.sku_id) =
          (ps[i]?).map (fun _ => "Not found") ∧
        ((enrich_products f ps)[i]?).map (·.part_number) =
          (ps[i]?).map (fun _ => "Not found")) := by
  constructor
  · rfl
  · intro hne hexn
    have hout : enrich_products f ps = ps.map create_error_product_service := by
      unfold enrich_products
      rw [if_neg (by simpa [List.isEmpty_iff] using hne), hexn]
    rw [hout]
    refine ⟨List.length_map _ _, ?_⟩
    intro i
    rw [List.getElem?_map]
    cases hp : ps[i]? with
    | none => exact ⟨rfl, rfl, rfl, rfl⟩
    | some p => exact ⟨rfl, rfl, rfl, rfl⟩

/-- Witness for C10 at a concrete input: a singleton list whose crawler step
raises. -/
theorem claim_C10_witness :
    enrich_products (fun _ => BatchOutcome.bexn) [] = [] ∧
    ((enrich_products (fun _ => BatchOutcome.bexn)
        [⟨"", "", "Pipette Tips", "", "", "snippet", "https://v.test/p1"⟩]).length
      = 1 ∧
     ∀ i : Nat,
       ((enrich_products (fun _ => BatchOutcome.bexn)
          [⟨"", "", "Pipette Tips", "", "", "snippet", "https://v.test/p1"⟩])[i]?).map
            (·.product_url) =
        (([⟨"", "", "Pipette Tips", "", "", "snippet",
            "https://v.test/p1"⟩] : List ProductData)[i]?).map (·.product_url) ∧
       ((enrich_products (fun _ => BatchOutcome.bexn)
          [⟨"", "", "Pipette Tips", "", "", "snippet", "https://v.test/p1"⟩])[i]?).map
            (·.product_name) =
        (([⟨"", "", "Pipette Tips", "", "", "snippet",
            "https://v.test/p1"⟩] : List ProductData)[i]?).map (·.product_name) ∧
       ((enrich_products (fun _ => BatchOutcome.bexn)
          [⟨"", "", "Pipette Tips", "", "", "snippet", "https://v.test/p1"⟩])[i]?).map
            (·.sku_id) =
        (([⟨"", "", "Pipette Tips", "", "", "snippet",
            "https://v.test/p1"⟩] : List ProductData)[i]?).map (fun _ => "Not found") ∧
       ((enrich_products (fun _ => BatchOutcome.bexn)
          [⟨"", "", "Pipette Tips", "", "", "snippet", "https://v.test/p1"⟩])[i]?).map
            (·.part_number) =
        (([⟨"", "", "Pipette Tips", "", "", "snippet",
            "https://v.test/p1"⟩] : List ProductData)[i]?).map (fun _ => "Not found")) :=
  ⟨(claim_C10_batch_entry_never_raises (fun _ => BatchOutcome.bexn)
      [⟨"", "", "Pipette Tips", "", "", "snippet", "https://v.test/p1"⟩]).1,
   (claim_C10_batch_entry_never_raises (fun _ => BatchOutcome.bexn)
      [⟨"", "", "Pipette Tips", "", "", "snippet", "https://v.test/p1"⟩]).2
     (by simp) rfl⟩


/-- Claim **C5 is false as stated**: the LLM verifier's field validator
(`_validate_extracted_data`) does *not* map an over-long `sku_id` to the
sentinel — it truncates it to 20 characters (which then still passes the
shape pattern): a 21-`A` identifier comes back as 20 `A`s, not
`"Not found"`. -/
theorem claim_C5_counterexample :
    validate_one_field "sku_id" (vStr "AAAAAAAAAAAAAAAAAAAAA") =
      some (vStr "AAAAAAAAAAAAAAAAAAAA") ∧
    ("AAAAAAAAAAAAAAAAAAAA" : String) ≠ "Not found" :=
  ⟨rfl, by decide⟩

/-- Claim **C5 (amended)**: for every field with a maximum length (`sku_id` 20,
`part_number` 25, `brand` 50, `description` 200), the validator *truncates* a
string value exceeding the maximum to the maximum length instead of
rejecting it; for `sku_id`/`part_number` the truncated value is then still
checked against the shape pattern (sentinel on failure), while `brand` and
`description` keep the truncation unconditionally. -/
theorem claim_C5_truncation (s : String) :
    (s.length > 20 → validate_one_field "sku_id" (vStr s) =
      some (if pyMatchFullClass isSkuPatternChar (s.data.take 20) then
        vStr (String.mk (s.data.take 20)) else vStr "Not found")) ∧
    (s.length > 25 → validate_one_field "part_number" (vStr s) =
      some (if pyMatchFullClass isPartPatternChar (s.data.take 25) then
        vStr (String.mk (s.data.take 25)) else vStr "Not found")) ∧
    (s.length > 50 → validate_one_field "brand" (vStr s) =
      some (vStr (String.mk (s.data.take 50)))) ∧
    (s.length > 200 → validate_one_field "description" (vStr s) =
      some (vStr (String.mk (s.data.take 200)))) := by
  have key : ∀ (ft : String) (mn : Nat) (mx : Nat)
      (ps : Option (List (Char → Bool))),
      (ollama_validation_rules.find? (fun kv => kv.1 == ft)).map (·.2) =
        some ⟨some mn, some mx, ps⟩ →
      mn ≤ mx → mx ≠ 9 → s.length > mx →
      validate_one_field ft (vStr s) =
        some (match ps with
          | none => vStr (String.mk (s.data.take mx))
          | some pl =>
              if pl.any (fun p => pyMatchFullClass p (s.data.take mx)) then
                vStr (String.mk (s.data.take mx))
              else vStr "Not found") := by
    intro ft mn mx ps hrule hmnmx hmx9 hlen
    have h2 : decide (s.length < mn) = false := decide_eq_false (by omega)
    have h3 : decide (s.length > mx) = true := decide_eq_true hlen
    have htlen : (s.data.take mx).length = mx := by
      rw [List.length_take]
      have hsl : s.length = s.data.length := rfl
      omega
    have hnf : (String.mk (s.data.take mx) == "Not found") = false := by
      rw [beq_eq_false_iff_ne]
      intro he
      have hd : s.data.take mx = "Not found".data := congrArg String.data he
      have hl := congrArg List.length hd
      rw [htlen] at hl
      have h9 : ("Not found".data).length = 9 := rfl
      rw [h9] at hl
      exact hmx9 hl
    simp only [validate_one_field, hrule, pyLen, Option.pure_def,
      Option.bind_eq_bind, Option.some_bind, boundsStep, h2, h3,
      Bool.false_eq_true, if_false, if_true, pyTruncate]
    cases ps with
    | none => rfl
    | some pl =>
        simp only [pyEqStr, hnf, Bool.false_eq_true, if_false, data_mk]
  refine ⟨?_, ?_, ?_, ?_⟩
  · intro h
    have hk := key "sku_id" 2 20 (some [isSkuPatternChar]) rfl (by omega)
      (by omega) h
    rw [hk]
    simp only [List.any_cons, List.any_nil, Bool.or_false]
  · intro h
    have hk := key "part_number" 2 25 (some [isPartPatternChar]) rfl (by omega)
      (by omega) h
    rw [hk]
    simp only [List.any_cons, List.any_nil, Bool.or_false]
  · intro h
    exact key "brand" 2 50 none rfl (by omega) (by omega) h
  · intro h
    have h3 : decide (s.length > 200) = true := decide_eq_true h
    have hrule : (ollama_validation_rules.find?
        (fun kv => kv.1 == "description")).map (·.2) =
        some ⟨none, some 200, none⟩ := rfl
    simp only [validate_one_field, hrule, pyLen, Option.pure_def,
      Option.bind_eq_bind, Option.some_bind, boundsStep, h3,
      Bool.false_eq_true, if_false, if_true, pyTruncate]

/-- Witness for C5 (amended) at concrete over-long inputs. -/
theorem claim_C5_witness :
    (21 > 20 ∧ validate_one_field "sku_id"
        (vStr "AAAAAAAAABBBBBBBBBBCC") =
      some (if pyMatchFullClass isSkuPatternChar
          (("AAAAAAAAABBBBBBBBBBCC" : String).data.take 20) then
        vStr (String.mk (("AAAAAAAAABBBBBBBBBBCC" : String).data.take 20))
      else vStr "Not found")) :=
  ⟨by decide,
   (claim_C5_truncation "AAAAAAAAABBBBBBBBBBCC").1 (by decide)⟩

/-- Claim **C7 is false as stated**: the cleaning step is not idempotent on its own
output for `sku_id`: cleaning `"sku sku AB"` gives `"sku AB"` (one prefix
word stripped), and cleaning that already-produced value again gives
`"AB"`. -/
theorem claim_C7_counterexample :
    clean_and_validate_field [] (vStr "sku sku AB") "sku_id" = "sku AB" ∧
    clean_and_validate_field []
        (vStr (clean_and_validate_field [] (vStr "sku sku AB") "sku_id"))
        "sku_id" = "AB" ∧
    ("AB" : String) ≠ "sku AB" :=
  ⟨by decide, by decide, by decide⟩

/-- Claim **C7 (amended)**: validation is idempotent on the sentinel and on the
price cleaner's outputs; for `sku_id`/`part_number` it is idempotent on an
already-produced value only when that value carries no further strippable
vendor word (`sku`/`part`/`number`/`id`/`code`/`item`) at its start or
end — the word-stripping substitutions can otherwise fire again. -/
theorem claim_C7_idempotent_validation (rules : Rules) (v : PyVal) (ft : String)
    (hft : ft = "sku_id" ∨ ft = "part_number")
    (hpre : stripVendorWordAtStart (clean_and_validate_field rules v ft).data =
      (clean_and_validate_field rules v ft).data)
    (hsuf : stripVendorWordAtEnd (clean_and_validate_field rules v ft).data =
      (clean_and_validate_field rules v ft).data) :
    clean_and_validate_field rules (vStr "Not found") ft = "Not found" ∧
    clean_and_validate_price (vStr "Not found") = "Not found" ∧
    clean_and_validate_price (vStr (clean_and_validate_price v)) =
      clean_and_validate_price v ∧
    clean_and_validate_field rules
        (vStr (clean_and_validate_field rules v ft)) ft =
      clean_and_validate_field rules v ft :=
  ⟨clean_field_sentinel rules ft, clean_price_sentinel, clean_price_idem v,
   clean_field_idem rules v ft hft hpre hsuf⟩

/-- Witness for C7 (amended) at a concrete already-clean value. -/
theorem claim_C7_witness :
    ("sku_id" = "sku_id" ∨ ("sku_id" : String) = "part_number") ∧
    clean_and_validate_field [] (vStr "AB-12") "sku_id" = "AB-12" ∧
    clean_and_validate_field []
        (vStr (clean_and_validate_field [] (vStr "AB-12") "sku_id")) "sku_id" =
      clean_and_validate_field [] (vStr "AB-12") "sku_id" :=
  ⟨Or.inl rfl, by decide,
   (claim_C7_idempotent_validation [] (vStr "AB-12") "sku_id" (Or.inl rfl)
      (by decide) (by decide)).2.2.2⟩


/-!
## Brace-pair parsing facts (`enrich_content`)
-/

/-- The `findIdx?` on a list whose prefix avoids the target character. -/
theorem findIdx?_not_in (a : List Char) (c : Char) (b : List Char)
    (ha : c ∉ a) :
    (a ++ c :: b).findIdx? (fun x => x == c) = some a.length := by
  induction a with
  | nil => simp
  | cons x xs ih =>
      have hx : (x == c) = false := by
        rw [beq_eq_false_iff_ne]
        intro he
        exact ha (he ▸ List.mem_cons_self x xs)
      simp only [List.cons_append, List.findIdx?_cons, hx, Bool.false_eq_true,
        if_false, List.findIdx?_succ]
      rw [ih (fun hm => ha (List.mem_cons_of_mem _ hm))]
      rfl

/-- The `str.find` returns the index of the first occurrence. -/
theorem pyFind_spec (a b : List Char) (c : Char) (ha : c ∉ a) :
    pyFind (a ++ c :: b) c = (a.length : Int) := by
  unfold pyFind
  rw [findIdx?_not_in a c b ha]

/-- The `str.rfind` returns the index of the last occurrence. -/
theorem pyRFind_spec (a b : List Char) (c : Char) (hb : c ∉ b) :
    pyRFind (a ++ c :: b) c = (a.length : Int) := by
  unfold pyRFind
  have hrev : (a ++ c :: b).reverse = b.reverse ++ c :: a.reverse := by
    rw [List.reverse_append, List.reverse_cons, List.append_assoc]
    rfl
  rw [hrev, findIdx?_not_in _ c _ (by simpa using hb)]
  simp only [List.length_append, List.length_cons, List.length_reverse]
  omega

/-- Taking `l₁.length + n` elements of an append. -/
theorem take_append_len {α : Type} (l₁ l₂ : List α) (n : Nat) :
    (l₁ ++ l₂).take (l₁.length + n) = l₁ ++ l₂.take n := by
  induction l₁ with
  | nil => simp
  | cons x xs ih =>
      simp only [List.cons_append, List.length_cons]
      rw [Nat.succ_add, List.take_succ_cons, ih]

/-- The Python slice from the first `{` to the last `}` (inclusive) of a
string decomposed around those braces. -/
theorem pySliceL_brace (a b c' : List Char) :
    pySliceL (a ++ '{' :: b ++ '}' :: c') ((a.length : Int))
      (((a ++ '{' :: b).length : Int) + 1) = '{' :: b ++ ['}'] := by
  unfold pySliceL
  have h1 : (((a ++ '{' :: b).length : Int) + 1).toNat =
      a.length + (b.length + 2) := by
    simp only [List.length_append, List.length_cons]
    omega
  have h2 : ((a.length : Int)).toNat = a.length := by omega
  rw [h1, h2]
  have hsplit : a ++ '{' :: b ++ '}' :: c' =
      a ++ ('{' :: b ++ ['}']) ++ c' := by
    simp [List.append_assoc]
  rw [hsplit, List.append_assoc, take_append_len]
  have h3 : ('{' :: b ++ ['}']) ++ c' = '{' :: b ++ '}' :: c' := by
    simp
  rw [h3]
  have h4 : b.length + 2 = ('{' :: b ++ ['}']).length := by
    simp
  rw [h4]
  have h5 : '{' :: b ++ '}' :: c' = ('{' :: b ++ ['}']) ++ c' := by simp
  rw [h5, List.take_left, List.drop_left]

/-- The `enrich_content` on a well-formed 200 response, before the brace
analysis. -/
theorem enrich_content_response
    (decode : String → Option (List (String × PyVal))) (llm : String) :
    enrich_content decode (.tok 200 [("response", vStr llm)]) =
      (if pyFind llm.data '{' ≥ 0 ∧ pyRFind llm.data '}' + 1 > pyFind llm.data '{'
       then postParse decode
         (String.mk (pySliceL llm.data (pyFind llm.data '{')
           (pyRFind llm.data '}' + 1)))
       else []) := by
  have hresp : dictGetD [("response", vStr llm)] "response" (vStr "") =
      vStr llm := rfl
  simp only [enrich_content, hresp, postParse]
  rw [if_neg (by omega)]
  rfl


/-- Looking up the key just written by a dict assignment. -/
theorem dictGet_dictSet (l : List (String × PyVal)) (k : String) (v : PyVal) :
    dictGet (dictSet l k v) k = some v := by
  induction l with
  | nil => simp [dictSet, dictGet]
  | cons kv rest ih =>
      by_cases hk : kv.1 == k
      · obtain ⟨k', v'⟩ := kv
        simp only at hk
        simp [dictSet, dictGet, hk]
      · obtain ⟨k', v'⟩ := kv
        simp only at hk
        simp only [dictSet, hk, Bool.false_eq_true, if_false]
        simp only [dictGet, List.find?_cons, hk]
        exact ih

/-- Claim **C8**: the LLM verifier parses exactly the substring from the first `{`
to the last `}` of the model response as JSON, returning the validated
candidate set on success; a transport error, a non-success status, a missing
brace pair, or a JSON parse failure each yield the empty candidate set, and
(by construction of the embedding, whose every exception path is caught)
nothing is ever raised to the caller. -/
theorem claim_C8_tolerant_parsing
    (decode : String → Option (List (String × PyVal)))
    (st : Nat) (body : List (String × PyVal)) (llm : String)
    (a b c : List Char) :
    enrich_content decode TransportOutcome.terr = [] ∧
    (st ≠ 200 → enrich_content decode (.tok st body) = []) ∧
    (dictGetD body "response" (vStr "") = vStr llm → hasBracePair llm = false →
      enrich_content decode (.tok 200 body) = []) ∧
    ('{' ∉ a → '}' ∉ c →
      enrich_content decode (.tok 200
          [("response", vStr (String.mk (a ++ '{' :: b ++ '}' :: c)))]) =
        postParse decode (String.mk ('{' :: b ++ ['}']))) ∧
    (∀ js : String, decode js = none → postParse decode js = []) ∧
    (∀ js : String, ∀ d : List (String × PyVal), decode js = some d →
      postParse decode js =
        (match validate_extracted_data d with
         | none => []
         | some cleaned =>
             dictSet cleaned "attributes"
               (asAttrList (dictGetD d "attributes" (vList []))))) := by
  refine ⟨rfl, ?_, ?_, ?_, ?_, ?_⟩
  · intro hst
    simp only [enrich_content]
    rw [if_pos hst]
  · intro hresp hbp
    simp only [enrich_content, hresp]
    rw [if_neg (by omega)]
    rw [if_neg]
    intro hpair
    rw [hasBracePair, Bool.and_eq_false_iff] at hbp
    rcases hbp with h1 | h1 <;> simp only [decide_eq_false_iff_not] at h1
    · exact h1 hpair.1
    · exact h1 hpair.2
  · intro ha hc
    rw [enrich_content_response]
    simp only [data_mk]
    have hfind : pyFind (a ++ '{' :: b ++ '}' :: c) '{' = (a.length : Int) := by
      have hassoc : a ++ '{' :: b ++ '}' :: c = a ++ '{' :: (b ++ '}' :: c) := by
        simp
      rw [hassoc]
      exact pyFind_spec a _ '{' ha
    have hrfind : pyRFind (a ++ '{' :: b ++ '}' :: c) '}' =
        ((a ++ '{' :: b).length : Int) :=
      pyRFind_spec _ c '}' hc
    rw [hfind, hrfind, if_pos]
    · rw [pySliceL_brace]
    · constructor
      · omega
      · simp only [List.length_append, List.length_cons]
        omega
  · intro js hdec
    simp [postParse, hdec]
  · intro js d hdec
    simp [postParse, hdec]

/-- Witness for C8 at concrete inputs: a 500 status, a response with no
braces, and a response `x{k}y` whose parsed substring is `{k}`. -/
theorem claim_C8_witness :
    (enrich_content (fun _ => none) (.tok 500 []) = []) ∧
    (enrich_content (fun _ => none) (.tok 200 [("response", vStr "hello")]) = []) ∧
    (enrich_content (fun _ => none) (.tok 200
        [("response", vStr (String.mk (['x'] ++ '{' :: ['k'] ++ '}' :: ['y'])))]) =
      postParse (fun _ => none) (String.mk ('{' :: ['k'] ++ ['}']))) ∧
    (postParse (fun _ => none) "nope" = []) :=
  ⟨(claim_C8_tolerant_parsing (fun _ => none) 500 [] "" [] [] []).2.1 (by decide),
   (claim_C8_tolerant_parsing (fun _ => none) 200 [("response", vStr "hello")]
      "hello" [] [] []).2.2.1 rfl (by decide),
   (claim_C8_tolerant_parsing (fun _ => none) 200 [] "" ['x'] ['k'] ['y']).2.2.2.1
      (by decide) (by decide),
   (claim_C8_tolerant_parsing (fun _ => none) 200 [] "" [] [] []).2.2.2.2.1
      "nope" rfl⟩

/-- Claim **C9 is false as stated**: attribute elements are *not* filtered for
having both a key and a value — a parsed response whose single attribute
lacks a `value` is retained wholesale in the candidate set. -/
theorem claim_C9_counterexample :
    dictGet (enrich_content
        (fun _ => some [("attributes", vList [vDict [("key", vStr "volume")]])])
        (.tok 200 [("response", vStr "\x7b\x7d")])) "attributes" =
      some (vList [vDict [("key", vStr "volume")]]) ∧
    dictGet [("key", (vStr "volume" : PyVal))] "value" = none :=
  ⟨rfl, rfl⟩

/-- Claim **C9 (amended)**: the candidate set's `attributes` entry comes wholesale
from the parsed model response (the only stage that produces attributes): a
non-list shape collapses to the empty list, but the elements of a list are
retained unfiltered — nothing checks that an element supplies both a key and
a value.  (The merged `ProductData` record itself carries no attributes
field at all.) -/
theorem claim_C9_attributes_wholesale
    (decode : String → Option (List (String × PyVal))) (js : String)
    (d cleaned : List (String × PyVal))
    (hdec : decode js = some d)
    (hval : validate_extracted_data d = some cleaned) :
    postParse decode js =
      dictSet cleaned "attributes"
        (asAttrList (dictGetD d "attributes" (vList []))) ∧
    dictGet (postParse decode js) "attributes" =
      some (asAttrList (dictGetD d "attributes" (vList []))) ∧
    (∀ xs : List PyVal, asAttrList (vList xs) = vList xs) ∧
    (∀ s : String, asAttrList (vStr s) = vList []) ∧
    (∀ kvs : List (String × PyVal), asAttrList (vDict kvs) = vList []) := by
  have hp : postParse decode js =
      dictSet cleaned "attributes"
        (asAttrList (dictGetD d "attributes" (vList []))) := by
    simp [postParse, hdec, hval]
  refine ⟨hp, ?_, fun _ => rfl, fun _ => rfl, fun _ => rfl⟩
  rw [hp]
  exact dictGet_dictSet _ _ _

/-- Witness for C9 (amended) at a concrete parsed response. -/
theorem claim_C9_witness :
    postParse (fun _ => some [("attributes", vList [vInt 3])]) "in" =
      dictSet [("attributes", vList [vInt 3])] "attributes"
        (asAttrList (dictGetD [("attributes", vList [vInt 3])] "attributes"
          (vList []))) ∧
    dictGet (postParse (fun _ => some [("attributes", vList [vInt 3])]) "in")
        "attributes" = some (asAttrList (dictGetD
          [("attributes", vList [vInt 3])] "attributes" (vList []))) :=
  ⟨(claim_C9_attributes_wholesale (fun _ => some [("attributes", vList [vInt 3])])
      "in" [("attributes", vList [vInt 3])] [("attributes", vList [vInt 3])]
      rfl rfl).1,
   (claim_C9_attributes_wholesale (fun _ => some [("attributes", vList [vInt 3])])
      "in" [("attributes", vList [vInt 3])] [("attributes", vList [vInt 3])]
      rfl rfl).2.1⟩


/-!
## Extraction and merge helper lemmas
-/

/-- If structured extraction succeeds for one field it succeeds for every
field (failure depends only on the shape of the data, not the field name). -/
theorem extract_field_some_any {d : PyVal} {f fb : String} {v : String}
    (h : extract_field d f fb = some v) (f' fb' : String) :
    ∃ w, extract_field d f' fb' = some w := by
  unfold extract_field at h ⊢
  split at h
  · rename_i hft
    rw [if_pos hft]
    exact ⟨fb', rfl⟩
  · rename_i hft
    rw [if_neg hft]
    cases d with
    | vDict kvs => exact ⟨_, rfl⟩
    | vStr s => exact absurd h (by simp)
    | vInt n => exact absurd h (by simp)
    | vList xs => exact absurd h (by simp)
    | vNone => exact absurd h (by simp)

/-- The `_extract_field_with_patterns` keeps a present, non-sentinel structured
value. -/
theorem efwp_keep (mc : String) (pats : List (List RItem)) {d : PyVal}
    {f fb : String} {v : String} (h : extract_field d f fb = some v)
    (h1 : v ≠ "") (h2 : v ≠ "Not found") :
    extract_field_with_patterns d f fb mc pats = some v := by
  simp [extract_field_with_patterns, h, h1, h2]

/-- The `_extract_field_with_patterns` falls back to the pattern bank when the
structured value is empty or the sentinel and a pattern matches. -/
theorem efwp_pattern {d : PyVal} {f fb mc : String} {pats : List (List RItem)}
    {v m : String} (h : extract_field d f fb = some v)
    (hv : v = "" ∨ v = "Not found") (hm : extract_from_text pats mc = m)
    (hmne : m ≠ "") :
    extract_field_with_patterns d f fb mc pats = some m := by
  rcases hv with rfl | rfl <;> simp [extract_field_with_patterns, h, hm, hmne]

/-- The `_extract_field_with_patterns` keeps the structured value when the
pattern bank has nothing either. -/
theorem efwp_pattern_empty {d : PyVal} {f fb mc : String}
    {pats : List (List RItem)} {v : String}
    (h : extract_field d f fb = some v) (hv : v = "" ∨ v = "Not found")
    (hm : extract_from_text pats mc = "") :
    extract_field_with_patterns d f fb mc pats = some v := by
  rcases hv with rfl | rfl <;> simp [extract_field_with_patterns, h, hm]

/-- The `_extract_field_with_patterns` cannot raise if `_extract_field` did not. -/
theorem efwp_some (mc : String) (pats : List (List RItem)) {d : PyVal}
    {f fb : String} {v : String} (h : extract_field d f fb = some v) :
    ∃ w, extract_field_with_patterns d f fb mc pats = some w := by
  by_cases hc : v = "" ∨ v = "Not found"
  · by_cases hm : extract_from_text pats mc = ""
    · exact ⟨v, efwp_pattern_empty h hc hm⟩
    · exact ⟨_, efwp_pattern h hc rfl hm⟩
  · push_neg at hc
    exact ⟨v, efwp_keep mc pats h hc.1 hc.2⟩

/-- Site-specific extraction never overrides a present non-sentinel value. -/
theorem apply_site_keep (cur : String) (sels : List String) (content : String)
    (h1 : cur ≠ "") (h2 : cur ≠ "Not found") :
    apply_site_specific_extraction cur sels content = cur := by
  unfold apply_site_specific_extraction
  rw [if_pos]
  simp [h1, h2]

/-- The Ollama merge leaves a non-sentinel value unchanged. -/
theorem mergeField_keep (enr : List (String × PyVal)) (key : String)
    {cur : String} (h : cur ≠ "Not found") :
    mergeField enr key cur = vStr cur := by
  simp [mergeField, h]

/-- The Ollama merge consults the model exactly when the value is the
sentinel. -/
theorem mergeField_take (enr : List (String × PyVal)) (key : String) :
    mergeField enr key "Not found" = dictGetD enr key (vStr "Not found") := by
  simp [mergeField]

/-- The `a or b` on two string values. -/
theorem pyOr_vStr (a b : String) : pyOr (vStr a) (vStr b) = vStr (strOr a b) := by
  by_cases ha : a = "" <;> simp [pyOr, strOr, pyTruthy, ha]

/-- The record construction succeeds whenever the merged name, brand and
description are strings. -/
theorem buildProduct_some (o : ProductData) (sku part price n b d : String) :
    buildProduct o sku part price (vStr n) (vStr b) (vStr d) =
      some ⟨sku, part, strOr n o.product_name,
        strOr (strOr b o.brand) "Not found", price, strOr d o.description,
        o.product_url⟩ := by
  simp only [buildProduct, pyOr_vStr]

/-- The `d.get(k, default)` on an all-string dict returns a string. -/
theorem dictGetD_isStr {d : List (String × PyVal)} (h : allValuesStr d = true)
    (k : String) (s : String) : ∃ t, dictGetD d k (vStr s) = vStr t := by
  unfold dictGetD dictGet
  cases hf : d.find? (fun kv => kv.1 == k) with
  | none => exact ⟨s, rfl⟩
  | some kv =>
      have hmem := List.mem_of_find?_eq_some hf
      have hkv := (List.all_eq_true.mp h) kv hmem
      cases hv2 : kv.2 with
      | vStr t => exact ⟨t, by simp [hv2]⟩
      | vInt n => rw [hv2] at hkv; exact absurd hkv (by simp [isVStr])
      | vList xs => rw [hv2] at hkv; exact absurd hkv (by simp [isVStr])
      | vDict kvs => rw [hv2] at hkv; exact absurd hkv (by simp [isVStr])
      | vNone => rw [hv2] at hkv; exact absurd hkv (by simp [isVStr])

/-- The `processCore` reduces to `processAfterExtract` once the six extraction
calls succeed. -/
theorem processCore_eq (enrich : String → ProductData → List (String × PyVal))
    (st : SiteStrategies) (rules : Rules) (o : ProductData) (ec : PyVal)
    (md : Option String) {s1 s2 s3 s4 s5 s6 : String}
    (h1 : extract_field_with_patterns (resolveExtracted ec) "sku_id" o.sku_id
      (md.getD "") sku_patterns = some s1)
    (h2 : extract_field_with_patterns (resolveExtracted ec) "part_number"
      o.part_number (md.getD "") part_number_patterns = some s2)
    (h3 : extract_field (resolveExtracted ec) "product_name" o.product_name =
      some s3)
    (h4 : extract_field (resolveExtracted ec) "brand" o.brand = some s4)
    (h5 : extract_field_with_patterns (resolveExtracted ec) "price" o.price
      (md.getD "") price_patterns = some s5)
    (h6 : extract_field (resolveExtracted ec) "description" o.description =
      some s6) :
    processCore enrich st rules o ec md =
      processAfterExtract enrich
        (get_site_specific_selectors st o.product_url) rules o (md.getD "")
        s1 s2 s3 s4 s5 s6 := by
  simp only [processCore, h1, h2, h3, h4, h5, h6, Option.some_bind]
  rfl


/-- Claim **C3 is false as stated**: a structured `"SKU123"` passes the §4.5
identifier validator unchanged, yet the final record's identifier is
`"123"` — the final cleaning strips the recognized `sku` prefix even from
validator-passing structured values. -/
theorem claim_C3_counterexample :
    extract_field (resolveExtracted (vDict [("sku_id", vStr "SKU123")]))
        "sku_id" "" = some "SKU123" ∧
    validate_one_field "sku_id" (vStr "SKU123") = some (vStr "SKU123") ∧
    (process_crawl_result (fun _ _ => []) [] []
        ⟨"", "", "Pipette Tips", "", "", "", "https://v.test/p1"⟩
        (vDict [("sku_id", vStr "SKU123")]) none).sku_id = "123" ∧
    ("123" : String) ≠ "SKU123" :=
  ⟨rfl, rfl, by decide, by decide⟩

/-- Claim **C3 (amended)**: if the structured extractor yields a nonempty,
non-sentinel identifier that is a *fixed point of the final cleaning step*
(`_clean_and_validate_field` — which otherwise strips recognized vendor
words such as a `sku` prefix), then the final identifier equals that value
regardless of what the model returns (for string-valued model responses)
and of the site-override configuration. -/
theorem claim_C3_structured_precedence
    (enrich : String → ProductData → List (String × PyVal))
    (st : SiteStrategies) (rules : Rules) (o : ProductData) (ec : PyVal)
    (md : Option String) (v : String)
    (h1 : extract_field (resolveExtracted ec) "sku_id" o.sku_id = some v)
    (hv1 : v ≠ "") (hv2 : v ≠ "Not found")
    (hfix : clean_and_validate_field rules (vStr v) "sku_id" = v)
    (hstr : ∀ s p, allValuesStr (enrich s p) = true) :
    (process_crawl_result enrich st rules o ec md).sku_id = v := by
  obtain ⟨s2, h2e⟩ := extract_field_some_any h1 "part_number" o.part_number
  obtain ⟨w2, h2⟩ := efwp_some (md.getD "") part_number_patterns h2e
  obtain ⟨s3, h3⟩ := extract_field_some_any h1 "product_name" o.product_name
  obtain ⟨s4, h4⟩ := extract_field_some_any h1 "brand" o.brand
  obtain ⟨s5, h5e⟩ := extract_field_some_any h1 "price" o.price
  obtain ⟨w5, h5⟩ := efwp_some (md.getD "") price_patterns h5e
  obtain ⟨s6, h6⟩ := extract_field_some_any h1 "description" o.description
  have hsku := efwp_keep (md.getD "") sku_patterns h1 hv1 hv2
  have hcore := processCore_eq enrich st rules o ec md hsku h2 h3 h4 h5 h6
  have hfinal : ∃ q : ProductData,
      processAfterExtract enrich (get_site_specific_selectors st o.product_url)
        rules o (md.getD "") v w2 s3 s4 w5 s6 = some q ∧ q.sku_id = v := by
    simp only [processAfterExtract]
    have hsite : (if ¬ (get_site_specific_selectors st o.product_url).isEmpty
        then apply_site_specific_extraction v
          (selGet (get_site_specific_selectors st o.product_url) "sku_selectors")
          (md.getD "")
        else v) = v := by
      split
      · exact apply_site_keep v _ _ hv1 hv2
      · rfl
    rw [hsite]
    set p2 := (if ¬ (get_site_specific_selectors st o.product_url).isEmpty
      then apply_site_specific_extraction w2
        (selGet (get_site_specific_selectors st o.product_url)
          "part_number_selectors") (md.getD "")
      else w2) with hp2
    set p5 := (if ¬ (get_site_specific_selectors st o.product_url).isEmpty
      then apply_site_specific_extraction w5
        (selGet (get_site_specific_selectors st o.product_url)
          "price_selectors") (md.getD "")
      else w5) with hp5
    split
    · rename_i hmd
      have hname : ∃ n, mergeField (enrich (md.getD "") o) "product_name" s3 =
          vStr n := by
        by_cases h : s3 = "Not found"
        · subst h
          rw [mergeField_take]
          exact dictGetD_isStr (hstr _ o) _ _
        · exact ⟨s3, mergeField_keep _ _ h⟩
      have hbrand : ∃ n, mergeField (enrich (md.getD "") o) "brand" s4 =
          vStr n := by
        by_cases h : s4 = "Not found"
        · subst h
          rw [mergeField_take]
          exact dictGetD_isStr (hstr _ o) _ _
        · exact ⟨s4, mergeField_keep _ _ h⟩
      have hdesc : ∃ n, mergeField (enrich (md.getD "") o) "description" s6 =
          vStr n := by
        by_cases h : s6 = "Not found"
        · subst h
          rw [mergeField_take]
          exact dictGetD_isStr (hstr _ o) _ _
        · exact ⟨s6, mergeField_keep _ _ h⟩
      obtain ⟨n3, hn3⟩ := hname
      obtain ⟨n4, hn4⟩ := hbrand
      obtain ⟨n6, hn6⟩ := hdesc
      rw [mergeField_keep _ _ hv2, hn3, hn4, hn6, hfix, buildProduct_some]
      exact ⟨_, rfl, rfl⟩
    · rw [hfix, buildProduct_some]
      exact ⟨_, rfl, rfl⟩
  obtain ⟨q, hq, hqs⟩ := hfinal
  unfold process_crawl_result
  rw [hcore, hq]
  exact hqs

/-- Witness for C3 (amended): structured `AB-12` survives a model that
answers `ZZ-9` for the same field. -/
theorem claim_C3_witness :
    (process_crawl_result (fun _ _ => [("sku_id", vStr "ZZ-9")]) [] []
        ⟨"", "", "Pipette Tips", "", "", "", "https://v.test/p1"⟩
        (vDict [("sku_id", vStr "AB-12")]) (some "page text")).sku_id =
      "AB-12" :=
  claim_C3_structured_precedence (fun _ _ => [("sku_id", vStr "ZZ-9")]) [] []
    ⟨"", "", "Pipette Tips", "", "", "", "https://v.test/p1"⟩
    (vDict [("sku_id", vStr "AB-12")]) (some "page text") "AB-12" rfl
    (by decide) (by decide) (by decide) (fun _ _ => rfl)


/-- Claim **C4 is false as stated**: with the usual discovery seed (empty-string
fields), a product whose structured extraction and pattern scan both yield
nothing does *not* receive the model's validator-passing value — the merge
consults the model only when the carried value is exactly the sentinel
`"Not found"`, and an empty carried value bypasses it, ending as the
sentinel. -/
theorem claim_C4_counterexample :
    extract_field (resolveExtracted vNone) "sku_id" "" = some "" ∧
    extract_from_text sku_patterns "hi" = "" ∧
    validate_one_field "sku_id" (vStr "ABC-12") = some (vStr "ABC-12") ∧
    (process_crawl_result (fun _ _ => [("sku_id", vStr "ABC-12")]) [] []
        ⟨"", "", "Pipette Tips", "", "", "snippet", "https://v.test/p1"⟩
        vNone (some "hi")).sku_id = "Not found" ∧
    ("Not found" : String) ≠ "ABC-12" :=
  ⟨rfl, by decide, rfl, by decide, by decide⟩

/-- Claim **C4 (amended)**: the model's value is consulted only when the carried
value is exactly the sentinel.  When structured extraction yields the
sentinel (e.g. the seed field is `"Not found"`), the pattern stage finds
nothing, site overrides are disabled for the URL, and the model returns
string values whose `sku_id`/`part_number` are fixed points of the final
cleaning (and a nonempty `brand`), the final fields equal the model's
values. -/
theorem claim_C4_model_fallback
    (enrich : String → ProductData → List (String × PyVal))
    (st : SiteStrategies) (rules : Rules) (o : ProductData) (ec : PyVal)
    (t : String) (ms mp mb : String)
    (h1 : extract_field (resolveExtracted ec) "sku_id" o.sku_id =
      some "Not found")
    (h2 : extract_field (resolveExtracted ec) "part_number" o.part_number =
      some "Not found")
    (h4 : extract_field (resolveExtracted ec) "brand" o.brand =
      some "Not found")
    (hts : t ≠ "")
    (hp1 : extract_from_text sku_patterns t = "")
    (hp2 : extract_from_text part_number_patterns t = "")
    (hstr : ∀ s p, allValuesStr (enrich s p) = true)
    (hms : dictGet (enrich t o) "sku_id" = some (vStr ms))
    (hmp : dictGet (enrich t o) "part_number" = some (vStr mp))
    (hmb : dictGet (enrich t o) "brand" = some (vStr mb))
    (hfs : clean_and_validate_field rules (vStr ms) "sku_id" = ms)
    (hfp : clean_and_validate_field rules (vStr mp) "part_number" = mp)
    (hbne : mb ≠ "")
    (hsite : get_site_specific_selectors st o.product_url = []) :
    (process_crawl_result enrich st rules o ec (some t)).sku_id = ms ∧
    (process_crawl_result enrich st rules o ec (some t)).part_number = mp ∧
    (process_crawl_result enrich st rules o ec (some t)).brand = mb := by
  have hsku : extract_field_with_patterns (resolveExtracted ec) "sku_id"
      o.sku_id ((some t).getD "") sku_patterns = some "Not found" :=
    efwp_pattern_empty h1 (Or.inr rfl) hp1
  have hpart : extract_field_with_patterns (resolveExtracted ec) "part_number"
      o.part_number ((some t).getD "") part_number_patterns =
      some "Not found" :=
    efwp_pattern_empty h2 (Or.inr rfl) hp2
  obtain ⟨s3, h3⟩ := extract_field_some_any h1 "product_name" o.product_name
  obtain ⟨s5, h5e⟩ := extract_field_some_any h1 "price" o.price
  obtain ⟨w5, h5⟩ := efwp_some ((some t).getD "") price_patterns h5e
  obtain ⟨s6, h6⟩ := extract_field_some_any h1 "description" o.description
  have hcore := processCore_eq enrich st rules o ec (some t) hsku hpart h3 h4
    h5 h6
  have hgd : (some t).getD "" = t := rfl
  rw [hgd] at hcore
  have hfinal : ∃ q : ProductData,
      processAfterExtract enrich (get_site_specific_selectors st o.product_url)
        rules o t "Not found" "Not found" s3 "Not found" w5 s6 = some q ∧
      q.sku_id = ms ∧ q.part_number = mp ∧ q.brand = mb := by
    simp only [processAfterExtract, hsite, List.isEmpty_nil, not_true,
      if_false, if_pos hts]
    have hmergeskU : mergeField (enrich t o) "sku_id" "Not found" = vStr ms := by
      rw [mergeField_take]
      simp [dictGetD, hms]
    have hmergep : mergeField (enrich t o) "part_number" "Not found" =
        vStr mp := by
      rw [mergeField_take]
      simp [dictGetD, hmp]
    have hmergeb : mergeField (enrich t o) "brand" "Not found" = vStr mb := by
      rw [mergeField_take]
      simp [dictGetD, hmb]
    have hname : ∃ n, mergeField (enrich t o) "product_name" s3 = vStr n := by
      by_cases h : s3 = "Not found"
      · subst h
        rw [mergeField_take]
        exact dictGetD_isStr (hstr _ o) _ _
      · exact ⟨s3, mergeField_keep _ _ h⟩
    have hdesc : ∃ n, mergeField (enrich t o) "description" s6 = vStr n := by
      by_cases h : s6 = "Not found"
      · subst h
        rw [mergeField_take]
        exact dictGetD_isStr (hstr _ o) _ _
      · exact ⟨s6, mergeField_keep _ _ h⟩
    obtain ⟨n3, hn3⟩ := hname
    obtain ⟨n6, hn6⟩ := hdesc
    rw [hmergeskU, hmergep, hmergeb, hn3, hn6, hfs, hfp, buildProduct_some]
    refine ⟨_, rfl, rfl, rfl, ?_⟩
    show strOr (strOr mb o.brand) "Not found" = mb
    simp [strOr, hbne]
  obtain ⟨q, hq, hq1, hq2, hq3⟩ := hfinal
  unfold process_crawl_result
  rw [hcore, hq]
  exact ⟨hq1, hq2, hq3⟩

/-- Witness for C4 (amended) at a concrete sentinel-seeded product. -/
theorem claim_C4_witness :
    (process_crawl_result
        (fun _ _ => [("sku_id", vStr "ABC-12"), ("part_number", vStr "960/10"),
          ("brand", vStr "Gilson")]) [] []
        ⟨"Not found", "Not found", "Pipette Tips", "Not found", "", "",
          "https://v.test/p1"⟩ vNone (some "zz")).sku_id = "ABC-12" ∧
    (process_crawl_result
        (fun _ _ => [("sku_id", vStr "ABC-12"), ("part_number", vStr "960/10"),
          ("brand", vStr "Gilson")]) [] []
        ⟨"Not found", "Not found", "Pipette Tips", "Not found", "", "",
          "https://v.test/p1"⟩ vNone (some "zz")).part_number = "960/10" ∧
    (process_crawl_result
        (fun _ _ => [("sku_id", vStr "ABC-12"), ("part_number", vStr "960/10"),
          ("brand", vStr "Gilson")]) [] []
        ⟨"Not found", "Not found", "Pipette Tips", "Not found", "", "",
          "https://v.test/p1"⟩ vNone (some "zz")).brand = "Gilson" :=
  claim_C4_model_fallback
    (fun _ _ => [("sku_id", vStr "ABC-12"), ("part_number", vStr "960/10"),
      ("brand", vStr "Gilson")]) [] []
    ⟨"Not found", "Not found", "Pipette Tips", "Not found", "", "",
      "https://v.test/p1"⟩ vNone "zz" "ABC-12" "960/10" "Gilson"
    rfl rfl rfl (by decide) (by decide) (by decide) (fun _ _ => rfl)
    rfl rfl rfl (by decide) (by decide) (by decide) rfl


/-- Claim **C6 is false as stated**: with structured extraction absent, page text
`"SKU1234"` matches the first identifier pattern as `"SKU1234"`, but the
final identifier is `"1234"` — the final cleaning strips the `sku` prefix
from the pattern-bank match. -/
theorem claim_C6_counterexample :
    extract_from_text sku_patterns "SKU1234" = "SKU1234" ∧
    (process_crawl_result (fun _ _ => []) [] []
        ⟨"", "", "Pipette Tips", "", "", "", "https://v.test/p1"⟩ vNone
        (some "SKU1234")).sku_id = "1234" ∧
    ("1234" : String) ≠ "SKU1234" :=
  ⟨by decide, by decide, by decide⟩

/-- Claim **C6 (amended)**: if structured extraction for the identifier is absent
(empty) and the pattern bank's first match `m` on the page text is nonempty
(hence of stripped length > 2 by construction), site overrides are disabled
for the URL and the model returns string values, then the final identifier
is the clean-and-validate image of `m` — equal to `m` itself exactly when
`m` is a fixed point of the cleaning step. -/
theorem claim_C6_pattern_fallback
    (enrich : String → ProductData → List (String × PyVal))
    (st : SiteStrategies) (rules : Rules) (o : ProductData) (ec : PyVal)
    (t m : String)
    (h1 : extract_field (resolveExtracted ec) "sku_id" o.sku_id = some "")
    (hm : extract_from_text sku_patterns t = m)
    (hmne : m ≠ "") (hmnf : m ≠ "Not found")
    (hstr : ∀ s p, allValuesStr (enrich s p) = true)
    (hsite : get_site_specific_selectors st o.product_url = []) :
    (process_crawl_result enrich st rules o ec (some t)).sku_id =
      clean_and_validate_field rules (vStr m) "sku_id" := by
  have hts : t ≠ "" := by
    intro h
    subst h
    have hz : extract_from_text sku_patterns "" = "" := rfl
    rw [hm] at hz
    exact hmne hz
  have hsku : extract_field_with_patterns (resolveExtracted ec) "sku_id"
      o.sku_id ((some t).getD "") sku_patterns = some m :=
    efwp_pattern h1 (Or.inl rfl) hm hmne
  obtain ⟨s2, h2e⟩ := extract_field_some_any h1 "part_number" o.part_number
  obtain ⟨w2, h2⟩ := efwp_some ((some t).getD "") part_number_patterns h2e
  obtain ⟨s3, h3⟩ := extract_field_some_any h1 "product_name" o.product_name
  obtain ⟨s4, h4⟩ := extract_field_some_any h1 "brand" o.brand
  obtain ⟨s5, h5e⟩ := extract_field_some_any h1 "price" o.price
  obtain ⟨w5, h5⟩ := efwp_some ((some t).getD "") price_patterns h5e
  obtain ⟨s6, h6⟩ := extract_field_some_any h1 "description" o.description
  have hcore := processCore_eq enrich st rules o ec (some t) hsku h2 h3 h4 h5 h6
  have hgd : (some t).getD "" = t := rfl
  rw [hgd] at hcore
  have hfinal : ∃ q : ProductData,
      processAfterExtract enrich (get_site_specific_selectors st o.product_url)
        rules o t m w2 s3 s4 w5 s6 = some q ∧
      q.sku_id = clean_and_validate_field rules (vStr m) "sku_id" := by
    simp only [processAfterExtract, hsite, List.isEmpty_nil, not_true,
      if_false, if_pos hts]
    have hname : ∃ n, mergeField (enrich t o) "product_name" s3 = vStr n := by
      by_cases h : s3 = "Not found"
      · subst h
        rw [mergeField_take]
        exact dictGetD_isStr (hstr _ o) _ _
      · exact ⟨s3, mergeField_keep _ _ h⟩
    have hbrand : ∃ n, mergeField (enrich t o) "brand" s4 = vStr n := by
      by_cases h : s4 = "Not found"
      · subst h
        rw [mergeField_take]
        exact dictGetD_isStr (hstr _ o) _ _
      · exact ⟨s4, mergeField_keep _ _ h⟩
    have hdesc : ∃ n, mergeField (enrich t o) "description" s6 = vStr n := by
      by_cases h : s6 = "Not found"
      · subst h
        rw [mergeField_take]
        exact dictGetD_isStr (hstr _ o) _ _
      · exact ⟨s6, mergeField_keep _ _ h⟩
    obtain ⟨n3, hn3⟩ := hname
    obtain ⟨n4, hn4⟩ := hbrand
    obtain ⟨n6, hn6⟩ := hdesc
    rw [mergeField_keep _ _ hmnf, hn3, hn4, hn6, buildProduct_some]
    exact ⟨_, rfl, rfl⟩
  obtain ⟨q, hq, hqs⟩ := hfinal
  unfold process_crawl_result
  rw [hcore, hq]
  exact hqs

/-- Witness for C6 (amended): page text `AB123`, whose first pattern match
is `AB123`, itself clean-fixed, ends up as the final identifier. -/
theorem claim_C6_witness :
    (process_crawl_result (fun _ _ => []) [] []
        ⟨"", "", "Pipette Tips", "", "", "", "https://v.test/p1"⟩ vNone
        (some "AB123")).sku_id =
      clean_and_validate_field [] (vStr "AB123") "sku_id" :=
  claim_C6_pattern_fallback (fun _ _ => []) [] []
    ⟨"", "", "Pipette Tips", "", "", "", "https://v.test/p1"⟩ vNone
    "AB123" "AB123" rfl (by decide) (by decide) (by decide)
    (fun _ _ => rfl) rfl


/-- The `skuPartGood` holds of the sentinel. -/
theorem skuPartGood_sentinel (rules : Rules) (ft : String) :
    skuPartGood rules ft "Not found" = true := by
  simp [skuPartGood]

/-- The `skuPartGood` holds of every output of the cleaning step. -/
theorem skuPartGood_clean (rules : Rules) (v : PyVal) (ft : String)
    (hft : ft = "sku_id" ∨ ft = "part_number") :
    skuPartGood rules ft (clean_and_validate_field rules v ft) = true := by
  rcases clean_field_spec rules v ft hft with h | ⟨h1, h2, h3, h4⟩
  · rw [h]
    exact skuPartGood_sentinel rules ft
  · simp [skuPartGood, h1, h2, h3, h4]

/-- The `priceGood` holds of the sentinel. -/
theorem priceGood_sentinel : priceGood "Not found" = true := by
  simp [priceGood]

/-- The `priceGood` holds of every output of the price cleaner. -/
theorem priceGood_clean (v : PyVal) :
    priceGood (clean_and_validate_price v) = true := by
  rcases clean_price_spec v with h | ⟨h1, h2, h3⟩
  · rw [h]
    exact priceGood_sentinel
  · simp [priceGood, h1, h2, h3]

/-- The `a or b` on strings with a nonempty right side is nonempty. -/
theorem strOr_ne {a b : String} (hb : b ≠ "") : strOr a b ≠ "" := by
  unfold strOr
  split
  · assumption
  · exact hb

/-- Inversion of `processCore`: a successfully produced record comes from
`buildProduct` on cleaned merged values. -/
theorem processCore_inv {enrich : String → ProductData → List (String × PyVal)}
    {st : SiteStrategies} {rules : Rules} {o : ProductData} {ec : PyVal}
    {md : Option String} {q : ProductData}
    (h : processCore enrich st rules o ec md = some q) :
    ∃ m1 m2 m5 nV bV dV : PyVal,
      buildProduct o (clean_and_validate_field rules m1 "sku_id")
        (clean_and_validate_field rules m2 "part_number")
        (clean_and_validate_price m5) nV bV dV = some q := by
  simp only [processCore, bind, Option.bind_eq_some] at h
  obtain ⟨a1, -, h⟩ := h
  obtain ⟨a2, -, h⟩ := h
  obtain ⟨a3, -, h⟩ := h
  obtain ⟨a4, -, h⟩ := h
  obtain ⟨a5, -, h⟩ := h
  obtain ⟨a6, -, h⟩ := h
  obtain ⟨m1, m2, m5, n3, b4, d6, heq⟩ := processAfterExtract_eq_buildProduct
    enrich (get_site_specific_selectors st o.product_url) rules o (md.getD "")
    a1 a2 a3 a4 a5 a6
  rw [heq] at h
  exact ⟨m1, m2, m5, n3, b4, d6, h⟩

/-- Claim **C2 is false as stated**: with a seed whose description is empty and a
page whose structured extraction yields a one-character brand, the output
record has `description = ""` (an empty-string output field) and
`brand = "X"`, which fails the brand rule (minimum length 2) — brand and
description are not re-validated by the merge. -/
theorem claim_C2_counterexample :
    (process_crawl_result (fun _ _ => []) [] []
        ⟨"", "", "Pipette Tips", "", "", "", "https://v.test/p1"⟩
        (vDict [("brand", vStr "X")]) none).description = "" ∧
    (process_crawl_result (fun _ _ => []) [] []
        ⟨"", "", "Pipette Tips", "", "", "", "https://v.test/p1"⟩
        (vDict [("brand", vStr "X")]) none).brand = "X" ∧
    validate_one_field "brand" (vStr "X") = some (vStr "Not found") :=
  ⟨by decide, by decide, rfl⟩

/-- Claim **C2 (amended)**: on the success path (`_process_crawl_result`),
`sku_id` and `part_number` are each exactly `"Not found"` or a nonempty,
stripped value of length ≥ 2 passing the configured rules; `price` is
exactly `"Not found"` or a nonempty stripped value in one of the accepted
price shapes; `brand` is never the empty string; but `product_name`,
`brand` and `description` are not re-validated, and `description` may be
empty.  Degraded records (`_create_error_product`) carry sentinels for
`sku_id`/`part_number`, the sentinel price for a discovery-seeded input
(empty seed price), and nonempty `brand`/`description`. -/
theorem claim_C2_sentinel_closure
    (enrich : String → ProductData → List (String × PyVal))
    (st : SiteStrategies) (rules : Rules) (o : ProductData) (ec : PyVal)
    (md : Option String) (hprice : o.price = "") :
    skuPartGood rules "sku_id"
      (process_crawl_result enrich st rules o ec md).sku_id = true ∧
    skuPartGood rules "part_number"
      (process_crawl_result enrich st rules o ec md).part_number = true ∧
    priceGood (process_crawl_result enrich st rules o ec md).price = true ∧
    (process_crawl_result enrich st rules o ec md).brand ≠ "" ∧
    (create_error_product o).sku_id = "Not found" ∧
    (create_error_product o).part_number = "Not found" ∧
    (create_error_product o).price = "Not found" ∧
    (create_error_product o).brand ≠ "" ∧
    (create_error_product o).description ≠ "" := by
  have herr_price : (create_error_product o).price = "Not found" := by
    show strOr o.price "Not found" = "Not found"
    rw [hprice]
    rfl
  have herr_brand : (create_error_product o).brand ≠ "" :=
    strOr_ne (by decide)
  have herr_desc : (create_error_product o).description ≠ "" :=
    strOr_ne (by decide)
  unfold process_crawl_result
  rcases h : processCore enrich st rules o ec md with _ | q
  · exact ⟨skuPartGood_sentinel rules _, skuPartGood_sentinel rules _,
      herr_price ▸ priceGood_sentinel, herr_brand, rfl, rfl, herr_price,
      herr_brand, herr_desc⟩
  · obtain ⟨m1, m2, m5, nV, bV, dV, hb⟩ := processCore_inv h
    obtain ⟨hf1, hf2, hf3⟩ := buildProduct_fields hb
    refine ⟨?_, ?_, ?_, buildProduct_brand_ne hb, rfl, rfl, herr_price,
      herr_brand, herr_desc⟩
    · rw [hf1]
      exact skuPartGood_clean rules m1 "sku_id" (Or.inl rfl)
    · rw [hf2]
      exact skuPartGood_clean rules m2 "part_number" (Or.inr rfl)
    · rw [hf3]
      exact priceGood_clean m5

/-- Witness for C2 (amended) at a concrete discovery-seeded product. -/
theorem claim_C2_witness :
    skuPartGood [] "sku_id"
      (process_crawl_result (fun _ _ => []) [] []
        ⟨"", "", "Pipette Tips", "", "", "snippet", "https://v.test/p1"⟩
        (vDict [("sku_id", vStr "AB-12")]) none).sku_id = true ∧
    priceGood (process_crawl_result (fun _ _ => []) [] []
        ⟨"", "", "Pipette Tips", "", "", "snippet", "https://v.test/p1"⟩
        (vDict [("sku_id", vStr "AB-12")]) none).price = true :=
  ⟨(claim_C2_sentinel_closure (fun _ _ => []) [] []
      ⟨"", "", "Pipette Tips", "", "", "snippet", "https://v.test/p1"⟩
      (vDict [("sku_id", vStr "AB-12")]) none rfl).1,
   (claim_C2_sentinel_closure (fun _ _ => []) [] []
      ⟨"", "", "Pipette Tips", "", "", "snippet", "https://v.test/p1"⟩
      (vDict [("sku_id", vStr "AB-12")]) none rfl).2.2.1⟩


end ProductLookup







